import Mathlib

/-!
# WiFinder — verification of the presence engine and notification policy

Shallow embedding of the `wifinder` repository (Python) in Lean 4.

Conventions used throughout:

* `datetime` values are modelled as `Int` seconds; `timedelta` comparison
  `(now - last_seen) >= ttl` becomes integer subtraction and comparison.
* Nullable Python values (`None`) are modelled with `Option`.
* Python truthiness of strings (`if self.name:`) is modelled by `strTruthy`
  (a string is truthy iff it is non-empty); `None` is falsy.
* `str.upper()` on MAC addresses is modelled by `strUpper` (character-wise
  `Char.toUpper`; MAC addresses are ASCII so this matches Python).
* The SQLite `devices` table (primary key `mac`) is modelled as a list of
  `Device` records; the `presence_history` table as an append-only list of
  `EventRec`.  SQL queries are translated operation by operation below.
* Operations that perform I/O and can raise (the nmap scan) are modelled by
  an `Option`/`Except` value supplied by the caller.
-/

namespace WiFinder

/-- Python truthiness for `Optional[str]`: `None` and `""` are falsy. -/
def strTruthy : Option String → Bool
  | some s => !s.isEmpty
  | none => false

/-- `str.upper()` restricted to the ASCII strings used for MAC addresses
(`database.py` and `notifier.py` call `.upper()` on MAC keys). -/
def strUpper (s : String) : String := ⟨s.data.map Char.toUpper⟩

/-- SQL `COALESCE(a, b)`: first non-null argument. -/
def coalesce (a b : Option String) : Option String :=
  match a with
  | some v => some v
  | none => b

/-- `database.py:11` — dataclass `Device`. -/
structure Device where
  mac : String
  name : Option String := none
  vendor : Option String := none
  ip : Option String := none
  first_seen : Option Int := none
  last_seen : Option Int := none
  is_online : Bool := false
  group : Option String := none
deriving DecidableEq

/-- `database.py:24` — `Device.display_name`: name if truthy, else
`"{vendor} ({mac[-8:]})"` if vendor truthy, else the MAC. -/
def Device.display_name (d : Device) : String :=
  if strTruthy d.name then d.name.getD ""
  else if strTruthy d.vendor then
    d.vendor.getD "" ++ " (" ++ d.mac.drop (d.mac.length - 8) ++ ")"
  else d.mac

/-- A row of the `presence_history` table (`database.py:80`): MAC, event
kind (`"arrived"` or `"left"`), timestamp.  The AUTOINCREMENT id is the list
position. -/
structure EventRec where
  mac : String
  kind : String
  ts : Int
deriving DecidableEq

/-- The SQLite database of `database.py`: the `devices` table (keyed by MAC,
the primary key) and the append-only `presence_history` table. -/
structure Registry where
  devices : List Device
  events : List EventRec
deriving DecidableEq

/-- `database.py:92` — `Database.get_device`: `SELECT * FROM devices WHERE
mac = ?` with the key uppercased. -/
def getDevice (reg : Registry) (mac : String) : Option Device :=
  reg.devices.find? (fun d => d.mac == strUpper mac)

/-- SQLite `ORDER BY name, mac` comparison on rows: `name` first with `NULL`
sorting before any text, then `mac`; text compares byte-wise, which for the
ASCII strings involved agrees with `String` order. -/
def nameLtB : Option String → Option String → Bool
  | none, none => false
  | none, some _ => true
  | some _, none => false
  | some x, some y => decide (x < y)

/-- Row order used by `get_online_devices` (`ORDER BY name, mac`). -/
def devLeB (a b : Device) : Bool :=
  if a.name = b.name then decide (a.mac ≤ b.mac) else nameLtB a.name b.name

/-- `database.py:108` — `Database.get_online_devices`: `SELECT * FROM devices
WHERE is_online = 1 ORDER BY name, mac`. -/
def getOnlineDevices (reg : Registry) : List Device :=
  List.insertionSort (fun a b => devLeB a b = true)
    (reg.devices.filter (fun d => d.is_online))

/-- The `ON CONFLICT ... DO UPDATE SET` clause of `upsert_device`
(`database.py:116`): `name`/`vendor`/`group` are coalesced with the stored
row, `ip`/`last_seen`/`is_online` are overwritten, `first_seen` and `mac`
are untouched. -/
def upsertUpdate (d : Device) (now : Int) (r : Device) : Device :=
  { r with
    name := coalesce d.name r.name,
    vendor := coalesce d.vendor r.vendor,
    ip := d.ip,
    last_seen := some (d.last_seen.getD now),
    is_online := d.is_online,
    group := coalesce d.group r.group }

/-- The freshly inserted row of `upsert_device` when no row with this MAC
exists: the VALUES tuple, with `first_seen or datetime.now()` and
`last_seen or datetime.now()` defaults and the MAC uppercased. -/
def upsertInsert (d : Device) (now : Int) : Device :=
  { mac := strUpper d.mac, name := d.name, vendor := d.vendor, ip := d.ip,
    first_seen := some (d.first_seen.getD now),
    last_seen := some (d.last_seen.getD now),
    is_online := d.is_online, group := d.group }

/-- `database.py:116` — `Database.upsert_device`: `INSERT ... ON
CONFLICT(mac) DO UPDATE`.  `now` stands for the `datetime.now()` defaults. -/
def upsertDevice (reg : Registry) (d : Device) (now : Int) : Registry :=
  match reg.devices.find? (fun r => r.mac == strUpper d.mac) with
  | some _ =>
    { reg with devices :=
        reg.devices.map (fun r =>
          if r.mac = strUpper d.mac then upsertUpdate d now r else r) }
  | none =>
    { reg with devices := reg.devices ++ [upsertInsert d now] }

/-- `database.py:164` — `Database.log_event`: appends one row to
`presence_history` with the MAC uppercased. -/
def logEvent (reg : Registry) (mac kind : String) (now : Int) : Registry :=
  { reg with events := reg.events ++ [⟨strUpper mac, kind, now⟩] }

/-- `config.py:14` — dataclass `NotifyConfig`. -/
structure NotifyConfig where
  sound : Bool := true
  desktop : Bool := false
  telegram_token : Option String := none
  telegram_chat_id : Option String := none
  webhook_url : Option String := none
  quiet_hours_start : Option Int := none
  quiet_hours_end : Option Int := none
deriving DecidableEq

/-- `config.py:27` — dataclass `PanicConfig`. -/
structure PanicConfig where
  enabled : Bool := false
  message : String := "OHSHITOHSHITOHSHITOHSHITOHSHIT!"
  sound_loops : Int := 1
  only_unknown : Bool := true
  custom_messages : Option (List (String × String)) := none
deriving DecidableEq

/-- `config.py:40` — dataclass `Config`.  `db_path` is kept as a plain
string; path handling is irrelevant to the claims. -/
structure Config where
  network : String := "192.168.1.0/24"
  interval : Int := 30
  device_ttl : Int := 180
  notify : NotifyConfig := {}
  panic : PanicConfig := {}
  web_port : Int := 8080
  web_host : String := "0.0.0.0"
  db_path : String := "wifinder.db"
deriving DecidableEq

/-! ## Notification layer (`notifier.py`) -/

/-- A delivery channel instance, as set up by
`NotificationManager._setup_notifiers` (`notifier.py:215`). -/
inductive Channel where
  | desktop
  | sound
  | telegram (token chatId : String)
  | webhook (url : String)
deriving DecidableEq

/-- `notifier.py:155` — `PanicNotifier` state: message template and beep
repeat count. -/
structure PanicNotifier where
  message : String
  sound_loops : Int
deriving DecidableEq

/-- `notifier.py:215` — `_setup_notifiers`: desktop then sound then telegram
(when both token and chat id are truthy) then webhook (when truthy). -/
def setupNotifiers (c : NotifyConfig) : List Channel :=
  (if c.desktop then [Channel.desktop] else []) ++
  (if c.sound then [Channel.sound] else []) ++
  (if strTruthy c.telegram_token && strTruthy c.telegram_chat_id then
    [Channel.telegram (c.telegram_token.getD "") (c.telegram_chat_id.getD "")]
   else []) ++
  (if strTruthy c.webhook_url then [Channel.webhook (c.webhook_url.getD "")] else [])

/-- `notifier.py:205` — `NotificationManager` after `__init__`: the config,
the optional panic config, the channel list, and the panic notifier (set up
iff a panic config was given and it is enabled). -/
structure NotificationManager where
  config : NotifyConfig
  panic_config : Option PanicConfig
  notifiers : List Channel
  panic_notifier : Option PanicNotifier
deriving DecidableEq

/-- `notifier.py:208` — `NotificationManager.__init__` plus
`_setup_notifiers` (`notifier.py:231`: panic notifier iff `panic_config`
is not `None` and `panic_config.enabled`). -/
def mkManager (c : NotifyConfig) (pc : Option PanicConfig) : NotificationManager :=
  { config := c
    panic_config := pc
    notifiers := setupNotifiers c
    panic_notifier :=
      match pc with
      | some p => if p.enabled then some ⟨p.message, p.sound_loops⟩ else none
      | none => none }

/-- `notifier.py:238` — `_is_quiet_hours`: `False` when either bound is
`None`; otherwise `[start, end)` on the current hour when `start <= end`,
and the wraparound test `hour >= start or hour < end` when `start > end`. -/
def isQuietHours (c : NotifyConfig) (currentHour : Int) : Bool :=
  match c.quiet_hours_start, c.quiet_hours_end with
  | some s, some e =>
    if s ≤ e then decide (s ≤ currentHour) && decide (currentHour < e)
    else decide (currentHour ≥ s) || decide (currentHour < e)
  | _, _ => false

/-- `notifier.py:253` — `_should_panic`: requires the panic notifier and
config to be present, not quiet hours, and (when `only_unknown`) a device
whose `name` is falsy.  The `is_new` parameter of the Python method is
unused there and is dropped here. -/
def shouldPanic (m : NotificationManager) (d : Device) (currentHour : Int) : Bool :=
  match m.panic_notifier, m.panic_config with
  | some _, some p =>
    if isQuietHours m.config currentHour then false
    else if p.only_unknown && strTruthy d.name then false
    else true
  | _, _ => false

/-- `notifier.py:267` — `_get_panic_message`: `None` when there is no panic
config or its `custom_messages` dict is falsy (absent or empty), else the
dict lookup on the uppercased MAC. -/
def getPanicMessage (pc : Option PanicConfig) (d : Device) : Option String :=
  match pc with
  | none => none
  | some p =>
    match p.custom_messages with
    | none => none
    | some table =>
      if table.isEmpty then none else table.lookup (strUpper d.mac)

/-- `notifier.py:166` — `PanicNotifier.panic` message choice:
`custom_message or self.message` (Python `or`, so an empty custom message
falls back to the template). -/
def resolvePanicMessage (pn : PanicNotifier) (custom : Option String) : String :=
  match custom with
  | some s => if s.isEmpty then pn.message else s
  | none => pn.message

/-- Observable result of one `notify_*` call: suppressed outright, the
panic behavior (resolved message, beep count), or delivery of a
title/body to each channel in the list. -/
inductive NotifyOutcome where
  | suppressed
  | panicked (message : String) (sound_loops : Int)
  | delivered (channels : List Channel) (title body : String)
deriving DecidableEq

/-- `notifier.py:273` — `notify_arrival`: quiet hours suppress everything;
else panic takes over and returns; else deliver "Arrival" to every
channel. -/
def notifyArrival (m : NotificationManager) (d : Device) (currentHour : Int) :
    NotifyOutcome :=
  if isQuietHours m.config currentHour then .suppressed
  else if shouldPanic m d currentHour then
    match m.panic_notifier with
    | some pn =>
      .panicked (resolvePanicMessage pn (getPanicMessage m.panic_config d)) pn.sound_loops
    | none => .suppressed  -- unreachable: `shouldPanic` requires the notifier
  else
    .delivered m.notifiers "Arrival" (d.display_name ++ " is now home")

/-- `notifier.py:291` — `notify_departure`: quiet hours suppress; otherwise
deliver "Departure" to every channel (no panic path). -/
def notifyDeparture (m : NotificationManager) (d : Device) (currentHour : Int) :
    NotifyOutcome :=
  if isQuietHours m.config currentHour then .suppressed
  else .delivered m.notifiers "Departure" (d.display_name ++ " has left")

/-- `notifier.py:303` — `notify_new_device`: quiet hours suppress; else
panic takes over and returns; else deliver "New Device" to every channel. -/
def notifyNewDevice (m : NotificationManager) (d : Device) (currentHour : Int) :
    NotifyOutcome :=
  if isQuietHours m.config currentHour then .suppressed
  else if shouldPanic m d currentHour then
    match m.panic_notifier with
    | some pn =>
      .panicked (resolvePanicMessage pn (getPanicMessage m.panic_config d)) pn.sound_loops
    | none => .suppressed  -- unreachable: `shouldPanic` requires the notifier
  else
    .delivered m.notifiers "New Device"
      ("Unknown device" ++
        (if strTruthy d.vendor then " (" ++ d.vendor.getD "" ++ ")" else "") ++
        "\nMAC: " ++ d.mac)

/-- `watcher.py:24` — dataclass `PresenceChange`. -/
structure PresenceChange where
  device : Device
  change_type : String
deriving DecidableEq

/-- The watcher's dispatch of a change to the notifier
(`watcher.py:82`, `watcher.py:96`, `watcher.py:122`): `"new"` goes to
`notify_new_device`, `"arrived"` to `notify_arrival`, `"left"` to
`notify_departure`; no other kind is ever produced. -/
def handleChange (m : NotificationManager) (c : PresenceChange) (currentHour : Int) :
    Option NotifyOutcome :=
  if c.change_type = "new" then some (notifyNewDevice m c.device currentHour)
  else if c.change_type = "arrived" then some (notifyArrival m c.device currentHour)
  else if c.change_type = "left" then some (notifyDeparture m c.device currentHour)
  else none

/-! ## Presence engine (`watcher.py`) -/

/-- `scanner.py:31` — dataclass `ScanResult` (the `duration` field plays no
role in reconciliation and is dropped).  `Scanner.scan` builds each device
with `mac.upper()`, `ip = host`, the looked-up vendor, `last_seen =
scan_time` and `is_online = True`; the snapshot is an input here because the
scan itself is external I/O. -/
structure ScanResult where
  devices : List Device
  scan_time : Int
deriving DecidableEq

/-- State threaded through the snapshot loop of `Watcher.scan_once`
(`watcher.py:65`): the database, the `currently_seen` set (a Python `set`;
kept as the insertion list, membership is all that is used), and the
accumulated changes. -/
structure ScanLoopState where
  reg : Registry
  currentlySeen : List String
  changes : List PresenceChange
deriving DecidableEq

/-- One iteration of the `for device in result.devices` loop of
`Watcher.scan_once` (`watcher.py:67`).  `prevMacs` is the key set of the
`previously_online` dict captured before the loop; `scanTime` is
`result.scan_time`; `now` stands for the `datetime.now()` defaults inside
`upsert_device`/`log_event`. -/
def snapStep (scanTime : Int) (prevMacs : List String) (now : Int)
    (st : ScanLoopState) (device : Device) : ScanLoopState :=
  let seen := st.currentlySeen ++ [device.mac]
  match getDevice st.reg device.mac with
  | none =>
    -- watcher.py:73 — new device
    let d := { device with first_seen := some scanTime, is_online := true }
    { reg := logEvent (upsertDevice st.reg d now) d.mac "arrived" now
      currentlySeen := seen
      changes := st.changes ++ [⟨d, "new"⟩] }
  | some existing =>
    if prevMacs.contains device.mac then
      -- watcher.py:99 — still online, refresh only
      let d := { device with
                 name := existing.name, group := existing.group,
                 first_seen := existing.first_seen, is_online := true }
      { reg := upsertDevice st.reg d now
        currentlySeen := seen
        changes := st.changes }
    else
      -- watcher.py:85 — known device came back online
      let d := { device with
                 name := existing.name, group := existing.group,
                 first_seen := existing.first_seen, is_online := true }
      { reg := logEvent (upsertDevice st.reg d now) d.mac "arrived" now
        currentlySeen := seen
        changes := st.changes ++ [⟨d, "arrived"⟩] }

/-- One iteration of the TTL loop of `Watcher.scan_once` (`watcher.py:111`):
for a previously-online device absent from `currently_seen`, mark it
offline only when it has a `last_seen` and `now - last_seen >= ttl`. -/
def ttlStep (ttl : Int) (now : Int) (currentlySeen : List String)
    (acc : Registry × List PresenceChange) (device : Device) :
    Registry × List PresenceChange :=
  if currentlySeen.contains device.mac then acc
  else
    match device.last_seen with
    | some ls =>
      if now - ls ≥ ttl then
        let d := { device with is_online := false }
        (logEvent (upsertDevice acc.1 d now) device.mac "left" now,
         acc.2 ++ [⟨d, "left"⟩])
      else acc
    | none => acc  -- watcher.py:114 — `device.last_seen` falsy: never expire

/-- `watcher.py:48` — `Watcher.scan_once`, reconciliation only (the
notifier calls, `WatcherState` counters and `on_change` callback have no
effect on the registry or the returned changes and are modelled
separately).  A `none` scan result models `Scanner.scan` raising
(`scanner.py:74` has no exception handling and `scan_once` calls it outside
any `try`), in which case the exception propagates before any registry
mutation: `Except.error`. -/
def scanOnce (cfg : Config) (reg : Registry) (scanResult : Option ScanResult)
    (now : Int) : Except Unit (Registry × List PresenceChange) :=
  match scanResult with
  | none => .error ()
  | some result =>
    let previouslyOnline := getOnlineDevices reg
    let prevMacs := previouslyOnline.map (fun d => d.mac)
    let st := result.devices.foldl (snapStep result.scan_time prevMacs now)
      ⟨reg, [], []⟩
    let final := previouslyOnline.foldl (ttlStep cfg.device_ttl now st.currentlySeen)
      (st.reg, st.changes)
    .ok final

/-- `web.py:476` — the dashboard's `background_scan` loop body: `scan_once`
wrapped in `try/except Exception`, so a failed cycle leaves the registry as
it was and the loop retries. -/
def webBackgroundCycle (cfg : Config) (reg : Registry)
    (scanResult : Option ScanResult) (now : Int) : Registry :=
  match scanOnce cfg reg scanResult now with
  | .ok (reg', _) => reg'
  | .error _ => reg

/-- `cli.py:96` — the `watch` command's loop body: `scan_once` with only
`KeyboardInterrupt` caught, so a scan exception propagates out of the
process (`Except.error` = uncaught exception). -/
def cliWatchCycle (cfg : Config) (reg : Registry) (scanResult : Option ScanResult)
    (now : Int) : Except Unit (Registry × List PresenceChange) :=
  scanOnce cfg reg scanResult now

/-- A sequence of driver cycles as run by the dashboard loop: each entry is
the cycle's scan result (`none` = scan raised) and its wall-clock time. -/
def runCycles (cfg : Config) (reg : Registry)
    (cycles : List (Option ScanResult × Int)) : Registry :=
  cycles.foldl (fun r c => webBackgroundCycle cfg r c.1 c.2) reg

/-! ## Configuration loading (`config.py`) -/

/-- The `notify` section of a parsed YAML config file as consumed by
`NotifyConfig(**notify_data)`: a present key carries the stored value,
an absent key falls back to the dataclass default. -/
structure RawNotifyData where
  sound : Option Bool := none
  desktop : Option Bool := none
  telegram_token : Option (Option String) := none
  telegram_chat_id : Option (Option String) := none
  webhook_url : Option (Option String) := none
  quiet_hours_start : Option (Option Int) := none
  quiet_hours_end : Option (Option Int) := none
deriving DecidableEq

/-- The `panic` section of a parsed YAML config file as consumed by
`PanicConfig(**panic_data)`. -/
structure RawPanicData where
  enabled : Option Bool := none
  message : Option String := none
  sound_loops : Option Int := none
  only_unknown : Option Bool := none
  custom_messages : Option (Option (List (String × String))) := none
deriving DecidableEq

/-- A parsed YAML config file as consumed by `Config.load`
(`config.py:53`).  A missing file is the all-default value. -/
structure RawConfigData where
  network : Option String := none
  interval : Option Int := none
  device_ttl : Option Int := none
  notify : RawNotifyData := {}
  panic : RawPanicData := {}
  web_port : Option Int := none
  web_host : Option String := none
  db_path : Option String := none
deriving DecidableEq

/-- `NotifyConfig(**notify_data)` inside `Config.load` (`config.py:63`):
plain dataclass construction, each value taken verbatim, no validation. -/
def loadNotifyConfig (r : RawNotifyData) : NotifyConfig :=
  { sound := r.sound.getD true
    desktop := r.desktop.getD false
    telegram_token := r.telegram_token.getD none
    telegram_chat_id := r.telegram_chat_id.getD none
    webhook_url := r.webhook_url.getD none
    quiet_hours_start := r.quiet_hours_start.getD none
    quiet_hours_end := r.quiet_hours_end.getD none }

/-- `PanicConfig(**panic_data)` inside `Config.load` (`config.py:66`). -/
def loadPanicConfig (r : RawPanicData) : PanicConfig :=
  { enabled := r.enabled.getD false
    message := r.message.getD "OHSHITOHSHITOHSHITOHSHITOHSHIT!"
    sound_loops := r.sound_loops.getD 1
    only_unknown := r.only_unknown.getD true
    custom_messages := r.custom_messages.getD none }

/-- `config.py:53` — `Config.load`: builds the dataclasses straight from
the parsed YAML values.  There is no range or sanity check anywhere in it. -/
def loadConfig (r : RawConfigData) : Config :=
  { network := r.network.getD "192.168.1.0/24"
    interval := r.interval.getD 30
    device_ttl := r.device_ttl.getD 180
    notify := loadNotifyConfig r.notify
    panic := loadPanicConfig r.panic
    web_port := r.web_port.getD 8080
    web_host := r.web_host.getD "0.0.0.0"
    db_path := r.db_path.getD "wifinder.db" }

/-! ## Derived observations used by the claims -/

/-- The changes returned by one `scan_once` call (`[]` when the scan
raised, in which case no changes are reported at all). -/
def scanChangesOf (cfg : Config) (reg : Registry) (scanResult : Option ScanResult)
    (now : Int) : List PresenceChange :=
  match scanOnce cfg reg scanResult now with
  | .ok (_, cs) => cs
  | .error _ => []

/-- The registry after one `scan_once` call (unchanged when the scan
raised). -/
def scanRegOf (cfg : Config) (reg : Registry) (scanResult : Option ScanResult)
    (now : Int) : Registry :=
  match scanOnce cfg reg scanResult now with
  | .ok (r, _) => r
  | .error _ => reg

/-- Number of `"left"` changes reported for a given MAC. -/
def leftChangeCount (cs : List PresenceChange) (mac : String) : Nat :=
  (cs.filter (fun c => c.change_type == "left" && c.device.mac == mac)).length

/-- Number of `"left"` rows for a given MAC in the event log. -/
def leftEventCount (evs : List EventRec) (mac : String) : Nat :=
  (evs.filter (fun e => e.kind == "left" && e.mac == mac)).length

/-- Rank of a change kind in the order demanded by the spec: `new` before
`arrived` before `left`. -/
def kindRank (k : String) : Nat :=
  if k == "new" then 0 else if k == "arrived" then 1 else 2

/-- A list of naturals is nondecreasing. -/
def natNondecB : List Nat → Bool
  | [] => true
  | [_] => true
  | a :: b :: rest => decide (a ≤ b) && natNondecB (b :: rest)

/-- A list of strings is nondecreasing (ascending MACs). -/
def strNondecB : List String → Bool
  | [] => true
  | [_] => true
  | a :: b :: rest => decide (a ≤ b) && strNondecB (b :: rest)

/-- The MACs of the changes of a given kind, in list order. -/
def macsOfKind (cs : List PresenceChange) (k : String) : List String :=
  (cs.filter (fun c => c.change_type == k)).map (fun c => c.device.mac)

/-- The ordering property asserted by the spec for the change list of one
cycle: all `new` first, then `arrived`, then `left`, ascending MAC within
each kind. -/
def specOrderedB (cs : List PresenceChange) : Bool :=
  natNondecB (cs.map (fun c => kindRank c.change_type)) &&
  strNondecB (macsOfKind cs "new") &&
  strNondecB (macsOfKind cs "arrived") &&
  strNondecB (macsOfKind cs "left")

/-- Wellformedness of the device table, guaranteed by the real database:
every stored MAC is in canonical (uppercased) form — all writes go through
`upsert_device`/`Scanner`, which uppercase — and MACs are pairwise distinct
(`mac` is the PRIMARY KEY). -/
def WfRegistry (reg : Registry) : Prop :=
  (∀ d ∈ reg.devices, strUpper d.mac = d.mac) ∧
  (reg.devices.map (fun d => d.mac)).Nodup

/-- Sticky fields of a device record: the ones the spec calls user-owned. -/
def stickyEq (a b : Device) : Prop :=
  a.name = b.name ∧ a.group = b.group ∧ a.first_seen = b.first_seen

/-! ## Notification-policy lemmas -/

/-- `_is_quiet_hours` is false as soon as either bound is `None`. -/
theorem isQuietHours_eq_false_of_none (nc : NotifyConfig) (hour : Int)
    (h : nc.quiet_hours_start = none ∨ nc.quiet_hours_end = none) :
    isQuietHours nc hour = false := by
  unfold isQuietHours
  rcases h with h | h
  · rw [h]
  · rw [h]; cases nc.quiet_hours_start <;> rfl

/-- `_is_quiet_hours` is true for an hour inside the configured window,
with wraparound when `start > end`. -/
theorem isQuietHours_eq_true_of_inside (nc : NotifyConfig) (hour s e : Int)
    (hs : nc.quiet_hours_start = some s) (he : nc.quiet_hours_end = some e)
    (hin : if s ≤ e then s ≤ hour ∧ hour < e else hour ≥ s ∨ hour < e) :
    isQuietHours nc hour = true := by
  unfold isQuietHours
  rw [hs, he]
  by_cases hse : s ≤ e
  · rw [if_pos hse] at hin
    simp [hse, hin.1, hin.2]
  · rw [if_neg hse] at hin
    rcases hin with h | h <;> simp [hse, h]

/-- Claim C4: with quiet hours configured and the current local hour inside
the `[start, end)` window — wrapping past midnight when `start > end` —
handling any change (`new`, `arrived` or `left`) is suppressed outright:
no channel, no panic, no side effect. -/
theorem quiet_hours_suppress_everything
    (nc : NotifyConfig) (pc : Option PanicConfig) (d : Device) (kind : String)
    (hour s e : Int)
    (hs : nc.quiet_hours_start = some s) (he : nc.quiet_hours_end = some e)
    (hin : if s ≤ e then s ≤ hour ∧ hour < e else hour ≥ s ∨ hour < e)
    (hkind : kind = "new" ∨ kind = "arrived" ∨ kind = "left") :
    handleChange (mkManager nc pc) ⟨d, kind⟩ hour = some .suppressed := by
  have hq : isQuietHours nc hour = true :=
    isQuietHours_eq_true_of_inside nc hour s e hs he hin
  rcases hkind with h | h | h <;> subst h <;>
    simp [handleChange, notifyNewDevice, notifyArrival, notifyDeparture, mkManager, hq]

/-- Witness for C4: quiet hours 23–7 (a wraparound window), hour 2, an
`arrived` change is fully suppressed. -/
theorem quiet_hours_suppress_everything_witness :
    handleChange
      (mkManager { quiet_hours_start := some 23, quiet_hours_end := some 7 }
        (some { enabled := true, only_unknown := false }))
      ⟨{ mac := "AA" }, "arrived"⟩ 2 = some .suppressed :=
  quiet_hours_suppress_everything _ _ _ "arrived" 2 23 7 rfl rfl (by decide)
    (Or.inr (Or.inl rfl))

/-- Claim C9: if either quiet-hours bound is `None`, the quiet-hours check
reports false for every hour, and handling any change behaves exactly as
with no quiet-hours window configured at all. -/
theorem missing_quiet_bound_never_suppresses
    (nc : NotifyConfig) (pc : Option PanicConfig) (c : PresenceChange) (hour : Int)
    (h : nc.quiet_hours_start = none ∨ nc.quiet_hours_end = none) :
    isQuietHours nc hour = false ∧
    handleChange (mkManager nc pc) c hour =
      handleChange
        (mkManager { nc with quiet_hours_start := none, quiet_hours_end := none } pc)
        c hour := by
  have hq : isQuietHours nc hour = false := isQuietHours_eq_false_of_none nc hour h
  have hq' : isQuietHours
      { nc with quiet_hours_start := none, quiet_hours_end := none } hour = false := rfl
  refine ⟨hq, ?_⟩
  simp [handleChange, notifyNewDevice, notifyArrival, notifyDeparture, shouldPanic,
    mkManager, setupNotifiers, hq, hq']

/-- Witness for C9: only the start bound set, hour inside what would be the
window; nothing is suppressed and the outcome matches the windowless
configuration. -/
theorem missing_quiet_bound_never_suppresses_witness :
    isQuietHours { quiet_hours_start := some 0, quiet_hours_end := none } 2 = false ∧
    handleChange
      (mkManager { quiet_hours_start := some 0, quiet_hours_end := none } none)
      ⟨{ mac := "AA" }, "arrived"⟩ 2 =
      handleChange
        (mkManager { sound := true, desktop := false } none)
        ⟨{ mac := "AA" }, "arrived"⟩ 2 :=
  missing_quiet_bound_never_suppresses _ none ⟨{ mac := "AA" }, "arrived"⟩ 2
    (Or.inr rfl)

/-- Claim C5: outside quiet hours, with panic enabled and applicable
(unrestricted, or the device unnamed under `only_unknown`), a `new` or
`arrived` change fires the panic behavior — per-MAC custom message if
present (and non-empty), else the default template — and never also
delivers to the ordinary channels. -/
theorem panic_overrides_normal_delivery
    (nc : NotifyConfig) (p : PanicConfig) (d : Device) (kind : String) (hour : Int)
    (hq : isQuietHours nc hour = false)
    (hen : p.enabled = true)
    (happ : p.only_unknown = false ∨ d.name = none)
    (hkind : kind = "new" ∨ kind = "arrived") :
    handleChange (mkManager nc (some p)) ⟨d, kind⟩ hour =
      some (.panicked
        (resolvePanicMessage ⟨p.message, p.sound_loops⟩ (getPanicMessage (some p) d))
        p.sound_loops) ∧
    (getPanicMessage (some p) d = none →
      resolvePanicMessage ⟨p.message, p.sound_loops⟩ (getPanicMessage (some p) d)
        = p.message) ∧
    (∀ s, getPanicMessage (some p) d = some s → s ≠ "" →
      resolvePanicMessage ⟨p.message, p.sound_loops⟩ (getPanicMessage (some p) d)
        = s) ∧
    (∀ chs t b, handleChange (mkManager nc (some p)) ⟨d, kind⟩ hour ≠
      some (.delivered chs t b)) := by
  have hsp : shouldPanic (mkManager nc (some p)) d hour = true := by
    simp only [shouldPanic, mkManager, hen, if_true]
    rw [hq]
    rcases happ with h | h
    · simp [h]
    · simp [h, strTruthy]
  simp only [mkManager, hen, if_true] at hsp
  have hmain : handleChange (mkManager nc (some p)) ⟨d, kind⟩ hour =
      some (.panicked
        (resolvePanicMessage ⟨p.message, p.sound_loops⟩ (getPanicMessage (some p) d))
        p.sound_loops) := by
    rcases hkind with h | h <;> subst h <;>
      simp [handleChange, notifyNewDevice, notifyArrival, mkManager, hq, hen, hsp]
  refine ⟨hmain, ?_, ?_, ?_⟩
  · intro hnone; rw [hnone]; rfl
  · intro s hsome hne
    rw [hsome]
    have hie : s.isEmpty = false := by
      cases hi : s.isEmpty
      · rfl
      · exact absurd ((String.isEmpty_iff s).mp hi) hne
    simp [resolvePanicMessage, hie]
  · intro chs t b
    rw [hmain]
    simp

/-- Witness for C5: panic enabled and unrestricted, custom message table
has an entry for the device; an `arrived` change panics with the custom
message and delivers to no channel. -/
theorem panic_overrides_normal_delivery_witness :
    handleChange
      (mkManager { sound := true }
        (some { enabled := true, only_unknown := false, message := "DEF",
                sound_loops := 3, custom_messages := some [("AA", "CUSTOM")] }))
      ⟨{ mac := "AA" }, "arrived"⟩ 12 =
      some (.panicked "CUSTOM" 3) ∧
    (∀ chs t b,
      handleChange
        (mkManager { sound := true }
          (some { enabled := true, only_unknown := false, message := "DEF",
                  sound_loops := 3, custom_messages := some [("AA", "CUSTOM")] }))
        ⟨{ mac := "AA" }, "arrived"⟩ 12 ≠ some (.delivered chs t b)) := by
  have h := panic_overrides_normal_delivery { sound := true }
    { enabled := true, only_unknown := false, message := "DEF",
      sound_loops := 3, custom_messages := some [("AA", "CUSTOM")] }
    { mac := "AA" } "arrived" 12 rfl rfl (Or.inl rfl) (Or.inr rfl)
  refine ⟨?_, h.2.2.2⟩
  rw [h.1]
  have : getPanicMessage
      (some { enabled := true, only_unknown := false, message := "DEF",
              sound_loops := 3, custom_messages := some [("AA", "CUSTOM")] })
      { mac := "AA" } = some "CUSTOM" := by decide
  rw [this]
  rfl

/-! ## Configuration loading (claim C8) -/

/-- Counterexample to C8: `Config.load` accepts `quiet_hours_start = 99`
(outside 0–23) without complaint, and the bad value then takes effect in
the quiet-hours check during a notification cycle (`_is_quiet_hours`
reports quiet at hour 2 for the window 99–7).  Nothing is rejected at load
time. -/
theorem config_load_accepts_out_of_range_quiet_hours :
    (loadConfig { notify := { quiet_hours_start := some (some 99),
                              quiet_hours_end := some (some 7) } }).notify.quiet_hours_start
      = some 99 ∧
    isQuietHours
      (loadConfig { notify := { quiet_hours_start := some (some 99),
                                quiet_hours_end := some (some 7) } }).notify 2
      = true := by
  constructor
  · rfl
  · rfl

/-- Claim C8 as amended: configuration loading performs no validation at
all — every well-typed value, including quiet-hours bounds outside 0–23,
is loaded verbatim into the config and is consumed as-is by the cycle-time
checks. -/
theorem config_load_performs_no_validation (r : RawConfigData) :
    (loadConfig r).notify.quiet_hours_start = r.notify.quiet_hours_start.getD none ∧
    (loadConfig r).notify.quiet_hours_end = r.notify.quiet_hours_end.getD none ∧
    (loadConfig r).device_ttl = r.device_ttl.getD 180 ∧
    (loadConfig r).interval = r.interval.getD 30 :=
  ⟨rfl, rfl, rfl, rfl⟩

/-! ## Scanner failure (claim C6) -/

/-- Counterexample to C6: a failed scan is not handled inside `scan_once`
(`watcher.py:61` calls `Scanner.scan` outside any `try`), and the CLI
`watch` loop (`cli.py:96`) catches only `KeyboardInterrupt` — so there the
failure surfaces as an uncaught exception that kills the process,
contradicting "never surfaced as a crash". -/
theorem cli_watch_crashes_on_scan_failure :
    cliWatchCycle {} ⟨[], []⟩ none 0 = .error () := rfl

/-- Claim C6 as amended: when the Snapshot Source fails, `scan_once` aborts
before touching the registry, so reconciliation is skipped and no device is
marked offline; the web dashboard's background loop catches the exception
and retries, but the CLI `watch` loop does not catch it, so there the
failure does surface as a crash. -/
theorem scan_failure_skips_cycle (cfg : Config) (reg : Registry) (now : Int) :
    scanOnce cfg reg none now = .error () ∧
    webBackgroundCycle cfg reg none now = reg ∧
    cliWatchCycle cfg reg none now = .error () :=
  ⟨rfl, rfl, rfl⟩

/-! ## Primitive registry lemmas -/

theorem coalesce_self (a : Option String) : coalesce a a = a := by
  cases a <;> rfl

theorem upsertUpdate_mac (d : Device) (now : Int) (r : Device) :
    (upsertUpdate d now r).mac = r.mac := rfl

theorem logEvent_devices (reg : Registry) (mac kind : String) (now : Int) :
    (logEvent reg mac kind now).devices = reg.devices := rfl

theorem upsertDevice_events (reg : Registry) (d : Device) (now : Int) :
    (upsertDevice reg d now).events = reg.events := by
  unfold upsertDevice
  cases reg.devices.find? (fun r => r.mac == strUpper d.mac) <;> rfl

/-- `find?` by MAC commutes with a map that does not change MACs. -/
theorem find?_map_mac (l : List Device) (f : Device → Device)
    (hf : ∀ r, (f r).mac = r.mac) (K : String) :
    (l.map f).find? (fun r => r.mac == K) =
      (l.find? (fun r => r.mac == K)).map f := by
  rw [List.find?_map]
  have hp : ((fun r => r.mac == K) ∘ f) = (fun r => r.mac == K) := by
    funext r
    simp [Function.comp, hf r]
  rw [hp]

/-- `filter` by MAC commutes with a map that does not change MACs. -/
theorem filter_map_mac (l : List Device) (f : Device → Device)
    (hf : ∀ r, (f r).mac = r.mac) (K : String) :
    ((l.map f).filter (fun r => r.mac == K)).length =
      (l.filter (fun r => r.mac == K)).length := by
  rw [List.filter_map]
  have : (fun r => r.mac == K) ∘ f = fun r => r.mac == K := by
    funext r
    simp [Function.comp, hf r]
  rw [this, List.length_map]

/-- The updating closure of `upsertDevice` never changes a record's MAC. -/
theorem upsertClosure_mac (d : Device) (now : Int) (key : String) (r : Device) :
    (if r.mac = key then upsertUpdate d now r else r).mac = r.mac := by
  split <;> rfl

/-- Upserting under a different key leaves a record's `find?` untouched. -/
theorem upsertDevice_find?_of_ne (reg : Registry) (d : Device) (now : Int)
    (K : String) (hne : strUpper d.mac ≠ K) :
    (upsertDevice reg d now).devices.find? (fun r => r.mac == K) =
      reg.devices.find? (fun r => r.mac == K) := by
  unfold upsertDevice
  cases hfind : reg.devices.find? (fun r => r.mac == strUpper d.mac) with
  | some r0 =>
    show (reg.devices.map _).find? _ = _
    rw [find?_map_mac _ _ (fun r => upsertClosure_mac d now (strUpper d.mac) r)]
    cases hK : reg.devices.find? (fun r => r.mac == K) with
    | some r =>
      have hrK : r.mac = K := by simpa using List.find?_some hK
      show some (if r.mac = strUpper d.mac then upsertUpdate d now r else r) = some r
      rw [if_neg (by rw [hrK]; exact fun h2 => hne h2.symm)]
    | none => rfl
  | none =>
    show (reg.devices ++ [upsertInsert d now]).find? _ = _
    rw [List.find?_append]
    have h1 : ([upsertInsert d now].find? (fun r => r.mac == K)) = none := by
      rw [List.find?_cons_of_neg _ (by simpa [upsertInsert] using hne)]
      rfl
    rw [h1]
    cases reg.devices.find? (fun r => r.mac == K) <;> rfl

/-- Upserting an existing key rewrites exactly the found record. -/
theorem upsertDevice_find?_update (reg : Registry) (d : Device) (now : Int)
    (r0 : Device)
    (hfind : reg.devices.find? (fun r => r.mac == strUpper d.mac) = some r0) :
    (upsertDevice reg d now).devices.find? (fun r => r.mac == strUpper d.mac) =
      some (upsertUpdate d now r0) := by
  unfold upsertDevice
  rw [hfind]
  show (reg.devices.map _).find? _ = _
  rw [find?_map_mac _ _ (fun r => upsertClosure_mac d now (strUpper d.mac) r), hfind]
  have hmac : r0.mac = strUpper d.mac := by simpa using List.find?_some hfind
  show some (if r0.mac = strUpper d.mac then upsertUpdate d now r0 else r0) = _
  rw [if_pos hmac]

/-- Upserting an absent key appends the freshly inserted record. -/
theorem upsertDevice_find?_insert (reg : Registry) (d : Device) (now : Int)
    (hfind : reg.devices.find? (fun r => r.mac == strUpper d.mac) = none) :
    (upsertDevice reg d now).devices.find? (fun r => r.mac == strUpper d.mac) =
      some (upsertInsert d now) := by
  unfold upsertDevice
  rw [hfind]
  simp only [List.find?_append, hfind]
  simp [upsertInsert]

/-- In a table with pairwise-distinct MACs, `find?` on a member's MAC
returns that member. -/
theorem find?_eq_of_mem_nodup (l : List Device) (p : Device)
    (hnd : (l.map (fun d => d.mac)).Nodup) (hp : p ∈ l) :
    l.find? (fun r => r.mac == p.mac) = some p := by
  induction l with
  | nil => cases hp
  | cons h t ih =>
    rw [List.map_cons] at hnd
    have hnd' := List.nodup_cons.mp hnd
    rcases List.mem_cons.mp hp with rfl | hpt
    · exact List.find?_cons_of_pos _ (by simp)
    · have hhp : h.mac ≠ p.mac := by
        intro he
        exact hnd'.1 (he ▸ (List.mem_map.mpr ⟨p, hpt, rfl⟩))
      rw [List.find?_cons_of_neg _ (by simp [hhp])]
      exact ih hnd'.2 hpt

/-- `upsertDevice` with a canonical-MAC device preserves wellformedness. -/
theorem upsertDevice_wf (reg : Registry) (d : Device) (now : Int)
    (hwf : WfRegistry reg) (hd : strUpper d.mac = d.mac) :
    WfRegistry (upsertDevice reg d now) := by
  obtain ⟨hcan, hnd⟩ := hwf
  unfold upsertDevice
  cases hfind : reg.devices.find? (fun r => r.mac == strUpper d.mac) with
  | some r0 =>
    refine ⟨?_, ?_⟩
    · intro x hx
      obtain ⟨r, hr, rfl⟩ := List.mem_map.mp hx
      rw [upsertClosure_mac]
      exact hcan r hr
    · have : (reg.devices.map
          (fun r => if r.mac = strUpper d.mac then upsertUpdate d now r else r)).map
            (fun x => x.mac) = reg.devices.map (fun x => x.mac) := by
        rw [List.map_map]
        exact List.map_congr_left (fun r _ => upsertClosure_mac d now (strUpper d.mac) r)
      simpa [this] using hnd
  | none =>
    have hnotin : d.mac ∉ reg.devices.map (fun x => x.mac) := by
      intro hmem
      obtain ⟨r, hr, hrm⟩ := List.mem_map.mp hmem
      have := List.find?_eq_none.mp hfind r hr
      simp [hrm, hd] at this
    refine ⟨?_, ?_⟩
    · intro x hx
      rcases List.mem_append.mp hx with hx | hx
      · exact hcan x hx
      · have : x = upsertInsert d now := by simpa using hx
        subst this
        show strUpper (strUpper d.mac) = strUpper d.mac
        rw [hd, hd]
    · simp only [List.map_append]
      rw [List.nodup_append]
      refine ⟨hnd, by simp, ?_⟩
      intro a ha hb
      have : a = strUpper d.mac := by simpa [upsertInsert] using hb
      subst this
      rw [hd] at ha
      exact hnotin ha

/-! ## Step characterization lemmas -/

theorem snapStep_of_unknown (t : Int) (pm : List String) (now : Int)
    (st : ScanLoopState) (d : Device)
    (hg : getDevice st.reg d.mac = none) :
    snapStep t pm now st d =
      ⟨logEvent (upsertDevice st.reg { d with first_seen := some t, is_online := true } now)
          d.mac "arrived" now,
        st.currentlySeen ++ [d.mac],
        st.changes ++ [⟨{ d with first_seen := some t, is_online := true }, "new"⟩]⟩ := by
  simp only [snapStep, hg]

theorem snapStep_of_still_online (t : Int) (pm : List String) (now : Int)
    (st : ScanLoopState) (d e : Device)
    (hg : getDevice st.reg d.mac = some e) (hc : pm.contains d.mac = true) :
    snapStep t pm now st d =
      ⟨upsertDevice st.reg
          { d with name := e.name, group := e.group, first_seen := e.first_seen,
                   is_online := true } now,
        st.currentlySeen ++ [d.mac],
        st.changes⟩ := by
  simp only [snapStep, hg, hc, if_true]

theorem snapStep_of_arrived (t : Int) (pm : List String) (now : Int)
    (st : ScanLoopState) (d e : Device)
    (hg : getDevice st.reg d.mac = some e) (hc : pm.contains d.mac = false) :
    snapStep t pm now st d =
      ⟨logEvent (upsertDevice st.reg
          { d with name := e.name, group := e.group, first_seen := e.first_seen,
                   is_online := true } now) d.mac "arrived" now,
        st.currentlySeen ++ [d.mac],
        st.changes ++
          [⟨{ d with
              name := e.name, group := e.group, first_seen := e.first_seen,
              is_online := true }, "arrived"⟩]⟩ := by
  simp only [snapStep, hg, hc]
  rfl

theorem snapStep_currentlySeen (t : Int) (pm : List String) (now : Int)
    (st : ScanLoopState) (d : Device) :
    (snapStep t pm now st d).currentlySeen = st.currentlySeen ++ [d.mac] := by
  cases hg : getDevice st.reg d.mac with
  | none => rw [snapStep_of_unknown t pm now st d hg]
  | some e =>
    cases hc : pm.contains d.mac with
    | true => rw [snapStep_of_still_online t pm now st d e hg hc]
    | false => rw [snapStep_of_arrived t pm now st d e hg hc]

theorem ttlStep_of_seen (ttl now : Int) (seen : List String)
    (acc : Registry × List PresenceChange) (d : Device)
    (hc : seen.contains d.mac = true) :
    ttlStep ttl now seen acc d = acc := by
  simp only [ttlStep, hc, if_true]

theorem ttlStep_of_no_last_seen (ttl now : Int) (seen : List String)
    (acc : Registry × List PresenceChange) (d : Device)
    (hc : seen.contains d.mac = false) (hl : d.last_seen = none) :
    ttlStep ttl now seen acc d = acc := by
  simp only [ttlStep, hc, hl]
  rfl

theorem ttlStep_of_fresh (ttl now : Int) (seen : List String)
    (acc : Registry × List PresenceChange) (d : Device) (ls : Int)
    (hc : seen.contains d.mac = false) (hl : d.last_seen = some ls)
    (httl : ¬(now - ls ≥ ttl)) :
    ttlStep ttl now seen acc d = acc := by
  simp only [ttlStep, hc, hl, httl]
  rfl

theorem ttlStep_of_expired (ttl now : Int) (seen : List String)
    (acc : Registry × List PresenceChange) (d : Device) (ls : Int)
    (hc : seen.contains d.mac = false) (hl : d.last_seen = some ls)
    (httl : now - ls ≥ ttl) :
    ttlStep ttl now seen acc d =
      (logEvent (upsertDevice acc.1 { d with is_online := false } now) d.mac "left" now,
        acc.2 ++ [⟨{ d with is_online := false }, "left"⟩]) := by
  simp only [ttlStep, hc, hl, httl]
  rfl

/-! ## Fold-level lemmas for the snapshot loop -/

theorem snapStep_find?_of_ne (t : Int) (pm : List String) (now : Int)
    (st : ScanLoopState) (d : Device) (K : String)
    (hne : strUpper d.mac ≠ K) :
    (snapStep t pm now st d).reg.devices.find? (fun r => r.mac == K) =
      st.reg.devices.find? (fun r => r.mac == K) := by
  cases hg : getDevice st.reg d.mac with
  | none =>
    rw [snapStep_of_unknown t pm now st d hg]
    show (logEvent _ _ _ _).devices.find? _ = _
    rw [logEvent_devices]
    exact upsertDevice_find?_of_ne _ _ _ _ hne
  | some e =>
    cases hc : pm.contains d.mac with
    | true =>
      rw [snapStep_of_still_online t pm now st d e hg hc]
      exact upsertDevice_find?_of_ne _ _ _ _ hne
    | false =>
      rw [snapStep_of_arrived t pm now st d e hg hc]
      show (logEvent _ _ _ _).devices.find? _ = _
      rw [logEvent_devices]
      exact upsertDevice_find?_of_ne _ _ _ _ hne

theorem snapStep_changes_shape (t : Int) (pm : List String) (now : Int)
    (st : ScanLoopState) (d : Device) :
    ∃ inc, (snapStep t pm now st d).changes = st.changes ++ inc ∧
      ∀ c ∈ inc, (c.change_type = "new" ∨ c.change_type = "arrived") ∧
        c.device.mac = d.mac := by
  cases hg : getDevice st.reg d.mac with
  | none =>
    rw [snapStep_of_unknown t pm now st d hg]
    exact ⟨_, rfl, by simp⟩
  | some e =>
    cases hc : pm.contains d.mac with
    | true =>
      rw [snapStep_of_still_online t pm now st d e hg hc]
      exact ⟨[], by simp, by simp⟩
    | false =>
      rw [snapStep_of_arrived t pm now st d e hg hc]
      exact ⟨_, rfl, by simp⟩

theorem snapStep_events_shape (t : Int) (pm : List String) (now : Int)
    (st : ScanLoopState) (d : Device) :
    ∃ inc, (snapStep t pm now st d).reg.events = st.reg.events ++ inc ∧
      ∀ e ∈ inc, e.kind = "arrived" := by
  cases hg : getDevice st.reg d.mac with
  | none =>
    rw [snapStep_of_unknown t pm now st d hg]
    refine ⟨[⟨strUpper d.mac, "arrived", now⟩], ?_, by simp⟩
    show (upsertDevice st.reg _ now).events ++ [⟨strUpper d.mac, "arrived", now⟩]
      = st.reg.events ++ _
    rw [upsertDevice_events]
  | some e =>
    cases hc : pm.contains d.mac with
    | true =>
      rw [snapStep_of_still_online t pm now st d e hg hc]
      refine ⟨[], ?_, by simp⟩
      rw [List.append_nil]
      exact upsertDevice_events _ _ _
    | false =>
      rw [snapStep_of_arrived t pm now st d e hg hc]
      refine ⟨[⟨strUpper d.mac, "arrived", now⟩], ?_, by simp⟩
      show (upsertDevice st.reg _ now).events ++ [⟨strUpper d.mac, "arrived", now⟩]
        = st.reg.events ++ _
      rw [upsertDevice_events]

theorem snapFold_currentlySeen (t : Int) (pm : List String) (now : Int)
    (ds : List Device) (st : ScanLoopState) :
    (ds.foldl (snapStep t pm now) st).currentlySeen =
      st.currentlySeen ++ ds.map (fun d => d.mac) := by
  induction ds generalizing st with
  | nil => simp
  | cons d ds ih =>
    rw [List.foldl_cons, ih, snapStep_currentlySeen]
    simp

theorem snapFold_find?_of_ne (t : Int) (pm : List String) (now : Int)
    (ds : List Device) (st : ScanLoopState) (K : String)
    (hne : ∀ d ∈ ds, strUpper d.mac ≠ K) :
    (ds.foldl (snapStep t pm now) st).reg.devices.find? (fun r => r.mac == K) =
      st.reg.devices.find? (fun r => r.mac == K) := by
  induction ds generalizing st with
  | nil => rfl
  | cons d ds ih =>
    rw [List.foldl_cons, ih _ (fun x hx => hne x (List.mem_cons_of_mem d hx))]
    exact snapStep_find?_of_ne t pm now st d K (hne d (List.mem_cons_self d ds))

theorem snapFold_changes_shape (t : Int) (pm : List String) (now : Int)
    (ds : List Device) (st : ScanLoopState) :
    ∃ ex, (ds.foldl (snapStep t pm now) st).changes = st.changes ++ ex ∧
      ∀ c ∈ ex, (c.change_type = "new" ∨ c.change_type = "arrived") ∧
        c.device.mac ∈ ds.map (fun x => x.mac) := by
  induction ds generalizing st with
  | nil => exact ⟨[], by simp, by simp⟩
  | cons d ds ih =>
    rw [List.foldl_cons]
    obtain ⟨inc, hinc, hincP⟩ := snapStep_changes_shape t pm now st d
    obtain ⟨ex, hex, hexP⟩ := ih (snapStep t pm now st d)
    refine ⟨inc ++ ex, ?_, ?_⟩
    · rw [hex, hinc, List.append_assoc]
    · intro c hc
      rcases List.mem_append.mp hc with hc | hc
      · exact ⟨(hincP c hc).1, by simp [(hincP c hc).2]⟩
      · exact ⟨(hexP c hc).1, List.mem_map.mp ((hexP c hc).2) |>.elim
          (fun x hx => by
            rw [List.map_cons]
            exact List.mem_cons_of_mem _ (List.mem_map.mpr ⟨x, hx.1, hx.2⟩))⟩

theorem snapFold_events_shape (t : Int) (pm : List String) (now : Int)
    (ds : List Device) (st : ScanLoopState) :
    ∃ ey, (ds.foldl (snapStep t pm now) st).reg.events = st.reg.events ++ ey ∧
      ∀ e ∈ ey, e.kind = "arrived" := by
  induction ds generalizing st with
  | nil => exact ⟨[], by simp, by simp⟩
  | cons d ds ih =>
    rw [List.foldl_cons]
    obtain ⟨inc, hinc, hincP⟩ := snapStep_events_shape t pm now st d
    obtain ⟨ey, hey, heyP⟩ := ih (snapStep t pm now st d)
    refine ⟨inc ++ ey, ?_, ?_⟩
    · rw [hey, hinc, List.append_assoc]
    · intro e he
      rcases List.mem_append.mp he with he | he
      · exact hincP e he
      · exact heyP e he

theorem stickyEq_refl (a : Device) : stickyEq a a := ⟨rfl, rfl, rfl⟩

theorem stickyEq_trans {a b c : Device} (h1 : stickyEq a b) (h2 : stickyEq b c) :
    stickyEq a c :=
  ⟨h1.1.trans h2.1, h1.2.1.trans h2.2.1, h1.2.2.trans h2.2.2⟩

/-- One snapshot-loop step preserves the sticky fields of every record
visible via `find?`: the updating branches copy `name`/`group`/`first_seen`
from the existing record before upserting, and the SQL update clause never
touches `first_seen` and coalesces `name`/`group`. -/
theorem snapStep_sticky (t : Int) (pm : List String) (now : Int)
    (st : ScanLoopState) (d : Device) (K : String) (r : Device)
    (hr : st.reg.devices.find? (fun x => x.mac == K) = some r) :
    ∃ r', (snapStep t pm now st d).reg.devices.find? (fun x => x.mac == K) = some r' ∧
      stickyEq r r' := by
  by_cases hk : strUpper d.mac = K
  · cases hg : getDevice st.reg d.mac with
    | none =>
      exfalso
      have hnone : st.reg.devices.find? (fun x => x.mac == K) = none := by
        rw [← hk]; exact hg
      rw [hnone] at hr
      cases hr
    | some e =>
      have he : e = r := by
        have h2 : getDevice st.reg d.mac = some r := by
          show st.reg.devices.find? (fun x => x.mac == strUpper d.mac) = some r
          rw [hk]; exact hr
        rw [hg] at h2
        exact Option.some.inj h2
      subst he
      have hfind : st.reg.devices.find?
          (fun x => x.mac ==
            strUpper ({ d with
              name := e.name, group := e.group,
              first_seen := e.first_seen, is_online := true } : Device).mac) = some e := by
        show st.reg.devices.find? (fun x => x.mac == strUpper d.mac) = some e
        rw [hk]; exact hr
      have hres : ∀ reg2 : Registry,
          reg2.devices.find? (fun x => x.mac == K) =
            some (upsertUpdate { d with
              name := e.name, group := e.group,
              first_seen := e.first_seen, is_online := true } now e) →
          ∃ r', reg2.devices.find? (fun x => x.mac == K) = some r' ∧ stickyEq e r' := by
        intro reg2 h2
        refine ⟨_, h2, ?_, ?_, ?_⟩
        · show e.name = coalesce e.name e.name
          rw [coalesce_self]
        · show e.group = coalesce e.group e.group
          rw [coalesce_self]
        · rfl
      cases hc : pm.contains d.mac with
      | true =>
        rw [snapStep_of_still_online t pm now st d e hg hc]
        refine hres _ ?_
        show (upsertDevice st.reg _ now).devices.find? _ = _
        rw [← hk]
        exact upsertDevice_find?_update _ _ _ _ hfind
      | false =>
        rw [snapStep_of_arrived t pm now st d e hg hc]
        refine hres _ ?_
        show (logEvent (upsertDevice st.reg _ now) _ _ _).devices.find? _ = _
        rw [logEvent_devices, ← hk]
        exact upsertDevice_find?_update _ _ _ _ hfind
  · refine ⟨r, ?_, stickyEq_refl r⟩
    rw [snapStep_find?_of_ne t pm now st d K hk]
    exact hr

theorem snapFold_sticky (t : Int) (pm : List String) (now : Int)
    (ds : List Device) (st : ScanLoopState) (K : String) (r : Device)
    (hr : st.reg.devices.find? (fun x => x.mac == K) = some r) :
    ∃ r', (ds.foldl (snapStep t pm now) st).reg.devices.find? (fun x => x.mac == K)
        = some r' ∧ stickyEq r r' := by
  induction ds generalizing st r with
  | nil => exact ⟨r, hr, stickyEq_refl r⟩
  | cons d ds ih =>
    rw [List.foldl_cons]
    obtain ⟨r1, hr1, hs1⟩ := snapStep_sticky t pm now st d K r hr
    obtain ⟨r2, hr2, hs2⟩ := ih (snapStep t pm now st d) r1 hr1
    exact ⟨r2, hr2, stickyEq_trans hs1 hs2⟩

theorem snapStep_wf (t : Int) (pm : List String) (now : Int)
    (st : ScanLoopState) (d : Device)
    (hwf : WfRegistry st.reg) (hd : strUpper d.mac = d.mac) :
    WfRegistry (snapStep t pm now st d).reg := by
  cases hg : getDevice st.reg d.mac with
  | none =>
    rw [snapStep_of_unknown t pm now st d hg]
    exact upsertDevice_wf _ _ _ hwf hd
  | some e =>
    cases hc : pm.contains d.mac with
    | true =>
      rw [snapStep_of_still_online t pm now st d e hg hc]
      exact upsertDevice_wf _ _ _ hwf hd
    | false =>
      rw [snapStep_of_arrived t pm now st d e hg hc]
      exact upsertDevice_wf _ _ _ hwf hd

theorem snapFold_wf (t : Int) (pm : List String) (now : Int)
    (ds : List Device) (st : ScanLoopState)
    (hwf : WfRegistry st.reg) (hds : ∀ d ∈ ds, strUpper d.mac = d.mac) :
    WfRegistry (ds.foldl (snapStep t pm now) st).reg := by
  induction ds generalizing st with
  | nil => exact hwf
  | cons d ds ih =>
    rw [List.foldl_cons]
    exact ih _ (snapStep_wf t pm now st d hwf (hds d (List.mem_cons_self d ds)))
      (fun x hx => hds x (List.mem_cons_of_mem d hx))

/-! ## Upsert record-count lemmas -/

theorem upsertDevice_count_of_ne (reg : Registry) (d : Device) (now : Int)
    (K : String) (hne : strUpper d.mac ≠ K) :
    ((upsertDevice reg d now).devices.filter (fun r => r.mac == K)).length =
      (reg.devices.filter (fun r => r.mac == K)).length := by
  unfold upsertDevice
  cases hfind : reg.devices.find? (fun r => r.mac == strUpper d.mac) with
  | some r0 =>
    exact filter_map_mac _ _ (fun r => upsertClosure_mac d now (strUpper d.mac) r) K
  | none =>
    show ((reg.devices ++ [upsertInsert d now]).filter _).length = _
    rw [List.filter_append]
    have h1 : [upsertInsert d now].filter (fun r => r.mac == K) = [] := by
      simp [upsertInsert, hne]
    rw [h1, List.append_nil]

theorem upsertDevice_count_update (reg : Registry) (d : Device) (now : Int)
    (K : String) (r0 : Device)
    (hfind : reg.devices.find? (fun r => r.mac == strUpper d.mac) = some r0) :
    ((upsertDevice reg d now).devices.filter (fun r => r.mac == K)).length =
      (reg.devices.filter (fun r => r.mac == K)).length := by
  unfold upsertDevice
  rw [hfind]
  exact filter_map_mac _ _ (fun r => upsertClosure_mac d now (strUpper d.mac) r) K

theorem upsertDevice_count_insert (reg : Registry) (d : Device) (now : Int)
    (hfind : reg.devices.find? (fun r => r.mac == strUpper d.mac) = none) :
    ((upsertDevice reg d now).devices.filter (fun r => r.mac == strUpper d.mac)).length =
      (reg.devices.filter (fun r => r.mac == strUpper d.mac)).length + 1 := by
  unfold upsertDevice
  rw [hfind]
  show ((reg.devices ++ [upsertInsert d now]).filter _).length = _
  rw [List.filter_append]
  have h1 : [upsertInsert d now].filter (fun r => r.mac == strUpper d.mac) =
      [upsertInsert d now] := by
    simp [upsertInsert]
  rw [h1, List.length_append, List.length_singleton]

/-! ## Fold-level lemmas for the TTL loop -/

/-- A TTL step for a canonical-MAC entry different from `M` leaves the
`find?` for `M`, the `left`-change count for `M`, the `left`-event count
for `M` and the record count for `M` untouched. -/
theorem ttlStep_preserve_of_ne (ttl now : Int) (seen : List String)
    (acc : Registry × List PresenceChange) (d : Device) (M : String)
    (hcan : strUpper d.mac = d.mac) (hne : d.mac ≠ M) :
    ((ttlStep ttl now seen acc d).1.devices.find? (fun r => r.mac == M) =
      acc.1.devices.find? (fun r => r.mac == M)) ∧
    leftChangeCount (ttlStep ttl now seen acc d).2 M = leftChangeCount acc.2 M ∧
    leftEventCount (ttlStep ttl now seen acc d).1.events M =
      leftEventCount acc.1.events M ∧
    ((ttlStep ttl now seen acc d).1.devices.filter (fun r => r.mac == M)).length =
      (acc.1.devices.filter (fun r => r.mac == M)).length := by
  have hneK : strUpper d.mac ≠ M := by rw [hcan]; exact hne
  cases hc : seen.contains d.mac with
  | true =>
    rw [ttlStep_of_seen ttl now seen acc d hc]
    exact ⟨rfl, rfl, rfl, rfl⟩
  | false =>
    cases hl : d.last_seen with
    | none =>
      rw [ttlStep_of_no_last_seen ttl now seen acc d hc hl]
      exact ⟨rfl, rfl, rfl, rfl⟩
    | some ls =>
      by_cases httl : now - ls ≥ ttl
      · rw [ttlStep_of_expired ttl now seen acc d ls hc hl httl]
        refine ⟨?_, ?_, ?_, ?_⟩
        · show (logEvent _ _ _ _).devices.find? _ = _
          rw [logEvent_devices]
          exact upsertDevice_find?_of_ne _ _ _ _ hneK
        · unfold leftChangeCount
          rw [List.filter_append]
          have h1 : [(⟨{ d with is_online := false }, "left"⟩ : PresenceChange)].filter
              (fun c => c.change_type == "left" && c.device.mac == M) = [] := by
            simp [hne]
          rw [h1, List.append_nil]
        · show leftEventCount
            (logEvent (upsertDevice acc.1 { d with is_online := false } now)
              d.mac "left" now).events M = leftEventCount acc.1.events M
          unfold leftEventCount
          have hev : (logEvent (upsertDevice acc.1 { d with is_online := false } now)
              d.mac "left" now).events =
              acc.1.events ++ [⟨strUpper d.mac, "left", now⟩] := by
            show (upsertDevice acc.1 { d with is_online := false } now).events ++ _ = _
            rw [upsertDevice_events]
          rw [hev, List.filter_append]
          have h1 : [(⟨strUpper d.mac, "left", now⟩ : EventRec)].filter
              (fun e => e.kind == "left" && e.mac == M) = [] := by
            simp [hneK]
          rw [h1, List.append_nil]
        · show ((logEvent (upsertDevice acc.1 { d with is_online := false } now)
              d.mac "left" now).devices.filter (fun r => r.mac == M)).length =
            (acc.1.devices.filter (fun r => r.mac == M)).length
          rw [logEvent_devices]
          exact upsertDevice_count_of_ne _ _ _ _ hneK
      · rw [ttlStep_of_fresh ttl now seen acc d ls hc hl httl]
        exact ⟨rfl, rfl, rfl, rfl⟩

theorem ttlFold_preserve_of_ne (ttl now : Int) (seen : List String)
    (ps : List Device) (acc : Registry × List PresenceChange) (M : String)
    (hps : ∀ p ∈ ps, strUpper p.mac = p.mac ∧ p.mac ≠ M) :
    ((ps.foldl (ttlStep ttl now seen) acc).1.devices.find? (fun r => r.mac == M) =
      acc.1.devices.find? (fun r => r.mac == M)) ∧
    leftChangeCount (ps.foldl (ttlStep ttl now seen) acc).2 M =
      leftChangeCount acc.2 M ∧
    leftEventCount (ps.foldl (ttlStep ttl now seen) acc).1.events M =
      leftEventCount acc.1.events M ∧
    ((ps.foldl (ttlStep ttl now seen) acc).1.devices.filter
        (fun r => r.mac == M)).length =
      (acc.1.devices.filter (fun r => r.mac == M)).length := by
  induction ps generalizing acc with
  | nil => exact ⟨rfl, rfl, rfl, rfl⟩
  | cons p ps ih =>
    rw [List.foldl_cons]
    obtain ⟨hp1, hp2⟩ := hps p (List.mem_cons_self p ps)
    have hstep := ttlStep_preserve_of_ne ttl now seen acc p M hp1 hp2
    have hrest := ih (ttlStep ttl now seen acc p)
      (fun x hx => hps x (List.mem_cons_of_mem p hx))
    exact ⟨hrest.1.trans hstep.1, hrest.2.1.trans hstep.2.1,
      hrest.2.2.1.trans hstep.2.2.1, hrest.2.2.2.trans hstep.2.2.2⟩

theorem ttlStep_changes_shape (ttl now : Int) (seen : List String)
    (acc : Registry × List PresenceChange) (d : Device) :
    ∃ inc, (ttlStep ttl now seen acc d).2 = acc.2 ++ inc ∧
      ∀ c ∈ inc, c.change_type = "left" := by
  cases hc : seen.contains d.mac with
  | true =>
    rw [ttlStep_of_seen ttl now seen acc d hc]
    exact ⟨[], by simp, by simp⟩
  | false =>
    cases hl : d.last_seen with
    | none =>
      rw [ttlStep_of_no_last_seen ttl now seen acc d hc hl]
      exact ⟨[], by simp, by simp⟩
    | some ls =>
      by_cases httl : now - ls ≥ ttl
      · rw [ttlStep_of_expired ttl now seen acc d ls hc hl httl]
        exact ⟨_, rfl, by simp⟩
      · rw [ttlStep_of_fresh ttl now seen acc d ls hc hl httl]
        exact ⟨[], by simp, by simp⟩

theorem ttlFold_changes_shape (ttl now : Int) (seen : List String)
    (ps : List Device) (acc : Registry × List PresenceChange) :
    ∃ ex, (ps.foldl (ttlStep ttl now seen) acc).2 = acc.2 ++ ex ∧
      ∀ c ∈ ex, c.change_type = "left" := by
  induction ps generalizing acc with
  | nil => exact ⟨[], by simp, by simp⟩
  | cons p ps ih =>
    rw [List.foldl_cons]
    obtain ⟨inc, hinc, hincP⟩ := ttlStep_changes_shape ttl now seen acc p
    obtain ⟨ex, hex, hexP⟩ := ih (ttlStep ttl now seen acc p)
    refine ⟨inc ++ ex, ?_, ?_⟩
    · rw [hex, hinc, List.append_assoc]
    · intro c hc
      rcases List.mem_append.mp hc with hc | hc
      · exact hincP c hc
      · exact hexP c hc

theorem ttlStep_wf (ttl now : Int) (seen : List String)
    (acc : Registry × List PresenceChange) (d : Device)
    (hwf : WfRegistry acc.1) (hcan : strUpper d.mac = d.mac) :
    WfRegistry (ttlStep ttl now seen acc d).1 := by
  cases hc : seen.contains d.mac with
  | true => rw [ttlStep_of_seen ttl now seen acc d hc]; exact hwf
  | false =>
    cases hl : d.last_seen with
    | none => rw [ttlStep_of_no_last_seen ttl now seen acc d hc hl]; exact hwf
    | some ls =>
      by_cases httl : now - ls ≥ ttl
      · rw [ttlStep_of_expired ttl now seen acc d ls hc hl httl]
        exact upsertDevice_wf _ _ _ hwf hcan
      · rw [ttlStep_of_fresh ttl now seen acc d ls hc hl httl]; exact hwf

theorem ttlFold_wf (ttl now : Int) (seen : List String)
    (ps : List Device) (acc : Registry × List PresenceChange)
    (hwf : WfRegistry acc.1) (hps : ∀ p ∈ ps, strUpper p.mac = p.mac) :
    WfRegistry (ps.foldl (ttlStep ttl now seen) acc).1 := by
  induction ps generalizing acc with
  | nil => exact hwf
  | cons p ps ih =>
    rw [List.foldl_cons]
    exact ih _ (ttlStep_wf ttl now seen acc p hwf (hps p (List.mem_cons_self p ps)))
      (fun x hx => hps x (List.mem_cons_of_mem p hx))

/-- One TTL step preserves sticky fields of every record that `find?` sees,
relative to the cycle-start table `reg0`, provided the entry is the
`find?`-canonical record of its MAC in `reg0`. -/
theorem ttlStep_sticky (reg0 : Registry) (ttl now : Int) (seen : List String)
    (acc : Registry × List PresenceChange) (d : Device)
    (hcan : strUpper d.mac = d.mac)
    (hd0 : reg0.devices.find? (fun r => r.mac == d.mac) = some d)
    (hinv : ∀ K r, reg0.devices.find? (fun x => x.mac == K) = some r →
      ∃ r', acc.1.devices.find? (fun x => x.mac == K) = some r' ∧ stickyEq r r') :
    ∀ K r, reg0.devices.find? (fun x => x.mac == K) = some r →
      ∃ r', (ttlStep ttl now seen acc d).1.devices.find? (fun x => x.mac == K)
          = some r' ∧ stickyEq r r' := by
  intro K r hK
  cases hc : seen.contains d.mac with
  | true => rw [ttlStep_of_seen ttl now seen acc d hc]; exact hinv K r hK
  | false =>
    cases hl : d.last_seen with
    | none =>
      rw [ttlStep_of_no_last_seen ttl now seen acc d hc hl]
      exact hinv K r hK
    | some ls =>
      by_cases httl : now - ls ≥ ttl
      · rw [ttlStep_of_expired ttl now seen acc d ls hc hl httl]
        by_cases hk : d.mac = K
        · subst hk
          have hdr : d = r := by
            rw [hK] at hd0
            exact (Option.some.inj hd0).symm
          obtain ⟨r2, hr2, hs2⟩ := hinv d.mac r hK
          refine ⟨upsertUpdate { d with is_online := false } now r2, ?_, ?_⟩
          · show (logEvent (upsertDevice acc.1 { d with is_online := false } now)
                d.mac "left" now).devices.find? (fun x => x.mac == d.mac) = _
            rw [logEvent_devices]
            have hpre : acc.1.devices.find?
                (fun x => x.mac ==
                  strUpper ({ d with is_online := false } : Device).mac) = some r2 := by
              show acc.1.devices.find? (fun x => x.mac == strUpper d.mac) = some r2
              rw [hcan]; exact hr2
            have h3 := upsertDevice_find?_update acc.1
              { d with is_online := false } now r2 hpre
            have h4 : (upsertDevice acc.1 { d with is_online := false } now).devices.find?
                (fun x => x.mac == strUpper d.mac) =
                some (upsertUpdate { d with is_online := false } now r2) := h3
            rw [hcan] at h4
            exact h4
          · refine ⟨?_, ?_, ?_⟩
            · show r.name = coalesce d.name r2.name
              rw [show d.name = r2.name from by rw [hdr, hs2.1], coalesce_self]
              exact hs2.1
            · show r.group = coalesce d.group r2.group
              rw [show d.group = r2.group from by rw [hdr, hs2.2.1], coalesce_self]
              exact hs2.2.1
            · exact hs2.2.2
        · obtain ⟨r2, hr2, hs2⟩ := hinv K r hK
          refine ⟨r2, ?_, hs2⟩
          show (logEvent _ _ _ _).devices.find? _ = _
          rw [logEvent_devices]
          have hneK : strUpper ({ d with is_online := false } : Device).mac ≠ K := by
            show strUpper d.mac ≠ K
            rw [hcan]; exact hk
          rw [upsertDevice_find?_of_ne _ _ _ _ hneK]
          exact hr2
      · rw [ttlStep_of_fresh ttl now seen acc d ls hc hl httl]
        exact hinv K r hK

theorem ttlFold_sticky (reg0 : Registry) (ttl now : Int) (seen : List String)
    (ps : List Device) (acc : Registry × List PresenceChange)
    (hps : ∀ p ∈ ps, strUpper p.mac = p.mac ∧
      reg0.devices.find? (fun r => r.mac == p.mac) = some p)
    (hinv : ∀ K r, reg0.devices.find? (fun x => x.mac == K) = some r →
      ∃ r', acc.1.devices.find? (fun x => x.mac == K) = some r' ∧ stickyEq r r') :
    ∀ K r, reg0.devices.find? (fun x => x.mac == K) = some r →
      ∃ r', (ps.foldl (ttlStep ttl now seen) acc).1.devices.find? (fun x => x.mac == K)
          = some r' ∧ stickyEq r r' := by
  induction ps generalizing acc with
  | nil => exact hinv
  | cons p ps ih =>
    rw [List.foldl_cons]
    obtain ⟨hp1, hp2⟩ := hps p (List.mem_cons_self p ps)
    exact ih (ttlStep ttl now seen acc p)
      (fun x hx => hps x (List.mem_cons_of_mem p hx))
      (ttlStep_sticky reg0 ttl now seen acc p hp1 hp2 hinv)

/-! ## `get_online_devices` facts -/

theorem mem_of_mem_getOnlineDevices (reg : Registry) (p : Device)
    (hp : p ∈ getOnlineDevices reg) : p ∈ reg.devices ∧ p.is_online = true := by
  unfold getOnlineDevices at hp
  have hmem := (List.perm_insertionSort
    (fun a b => devLeB a b = true) (reg.devices.filter (fun d => d.is_online))).mem_iff.mp hp
  exact ⟨List.mem_of_mem_filter hmem, by simpa using List.of_mem_filter hmem⟩

theorem mem_getOnlineDevices_of (reg : Registry) (p : Device)
    (hp : p ∈ reg.devices) (ho : p.is_online = true) : p ∈ getOnlineDevices reg := by
  unfold getOnlineDevices
  exact (List.perm_insertionSort _ _).mem_iff.mpr (List.mem_filter.mpr ⟨hp, by simp [ho]⟩)

theorem getOnlineDevices_macs_nodup (reg : Registry) (hwf : WfRegistry reg) :
    ((getOnlineDevices reg).map (fun d => d.mac)).Nodup := by
  have hsub : List.Sublist
      ((reg.devices.filter (fun d => d.is_online)).map (fun d => d.mac))
      (reg.devices.map (fun d => d.mac)) :=
    (List.filter_sublist _).map _
  have hfil : ((reg.devices.filter (fun d => d.is_online)).map (fun d => d.mac)).Nodup :=
    hwf.2.sublist hsub
  exact (((List.perm_insertionSort (fun a b => devLeB a b = true)
    (reg.devices.filter (fun d => d.is_online))).map (fun d => d.mac)).nodup_iff).mpr hfil

/-! ## Count helpers -/

theorem leftChangeCount_append (a b : List PresenceChange) (M : String) :
    leftChangeCount (a ++ b) M = leftChangeCount a M + leftChangeCount b M := by
  unfold leftChangeCount
  rw [List.filter_append, List.length_append]

theorem leftEventCount_append (a b : List EventRec) (M : String) :
    leftEventCount (a ++ b) M = leftEventCount a M + leftEventCount b M := by
  unfold leftEventCount
  rw [List.filter_append, List.length_append]

theorem leftChangeCount_eq_zero_of (cs : List PresenceChange) (M : String)
    (h : ∀ c ∈ cs, c.change_type ≠ "left") : leftChangeCount cs M = 0 := by
  unfold leftChangeCount
  rw [List.length_eq_zero, List.filter_eq_nil_iff]
  intro c hc
  simp [h c hc]

theorem leftEventCount_eq_zero_of (evs : List EventRec) (M : String)
    (h : ∀ e ∈ evs, e.kind ≠ "left") : leftEventCount evs M = 0 := by
  unfold leftEventCount
  rw [List.length_eq_zero, List.filter_eq_nil_iff]
  intro e he
  simp [h e he]

/-- A TTL fold over entries that each either have a MAC different from `M`
(and canonical) or act as the identity on any accumulator preserves the
`M`-observations. -/
theorem ttlFold_preserve_of_each (ttl now : Int) (seen : List String)
    (ps : List Device) (acc : Registry × List PresenceChange) (M : String)
    (hps : ∀ p ∈ ps, (strUpper p.mac = p.mac ∧ p.mac ≠ M) ∨
      (∀ acc', ttlStep ttl now seen acc' p = acc')) :
    ((ps.foldl (ttlStep ttl now seen) acc).1.devices.find? (fun r => r.mac == M) =
      acc.1.devices.find? (fun r => r.mac == M)) ∧
    leftChangeCount (ps.foldl (ttlStep ttl now seen) acc).2 M =
      leftChangeCount acc.2 M := by
  induction ps generalizing acc with
  | nil => exact ⟨rfl, rfl⟩
  | cons p ps ih =>
    rw [List.foldl_cons]
    have hrest := ih (ttlStep ttl now seen acc p)
      (fun x hx => hps x (List.mem_cons_of_mem p hx))
    rcases hps p (List.mem_cons_self p ps) with ⟨hp1, hp2⟩ | hid
    · have hstep := ttlStep_preserve_of_ne ttl now seen acc p M hp1 hp2
      exact ⟨hrest.1.trans hstep.1, hrest.2.trans hstep.2.1⟩
    · rw [hid acc]
      exact ih acc (fun x hx => hps x (List.mem_cons_of_mem p hx))

/-- A TTL fold over entries with MACs different from `M` adds no change
whose device MAC is `M`. -/
theorem ttlFold_macChanges_of_ne (ttl now : Int) (seen : List String)
    (ps : List Device) (acc : Registry × List PresenceChange) (M : String)
    (hps : ∀ p ∈ ps, p.mac ≠ M) :
    (ps.foldl (ttlStep ttl now seen) acc).2.filter (fun c => c.device.mac == M) =
      acc.2.filter (fun c => c.device.mac == M) := by
  induction ps generalizing acc with
  | nil => rfl
  | cons p ps ih =>
    rw [List.foldl_cons]
    rw [ih (ttlStep ttl now seen acc p) (fun x hx => hps x (List.mem_cons_of_mem p hx))]
    have hne := hps p (List.mem_cons_self p ps)
    cases hc : seen.contains p.mac with
    | true => rw [ttlStep_of_seen ttl now seen acc p hc]
    | false =>
      cases hl : p.last_seen with
      | none => rw [ttlStep_of_no_last_seen ttl now seen acc p hc hl]
      | some ls =>
        by_cases httl : now - ls ≥ ttl
        · rw [ttlStep_of_expired ttl now seen acc p ls hc hl httl]
          show (acc.2 ++ [(⟨{ p with is_online := false }, "left"⟩ : PresenceChange)]).filter
              (fun c => c.device.mac == M) = acc.2.filter (fun c => c.device.mac == M)
          rw [List.filter_append]
          have h1 : [(⟨{ p with is_online := false }, "left"⟩ : PresenceChange)].filter
              (fun c => c.device.mac == M) = [] := by
            simp [hne]
          rw [h1, List.append_nil]
        · rw [ttlStep_of_fresh ttl now seen acc p ls hc hl httl]

/-! ## One-cycle theorems about `scan_once` -/

theorem scanOnce_wf (cfg : Config) (reg : Registry) (snap : ScanResult) (now : Int)
    (hwf : WfRegistry reg) (hsnap : ∀ d ∈ snap.devices, strUpper d.mac = d.mac) :
    WfRegistry (scanRegOf cfg reg (some snap) now) := by
  show WfRegistry ((getOnlineDevices reg).foldl
    (ttlStep cfg.device_ttl now
      (snap.devices.foldl (snapStep snap.scan_time
        ((getOnlineDevices reg).map (fun d => d.mac)) now) ⟨reg, [], []⟩).currentlySeen)
    ((snap.devices.foldl (snapStep snap.scan_time
        ((getOnlineDevices reg).map (fun d => d.mac)) now) ⟨reg, [], []⟩).reg,
     (snap.devices.foldl (snapStep snap.scan_time
        ((getOnlineDevices reg).map (fun d => d.mac)) now) ⟨reg, [], []⟩).changes)).1
  apply ttlFold_wf
  · exact snapFold_wf _ _ _ _ ⟨reg, [], []⟩ hwf hsnap
  · intro p hp
    exact hwf.1 p (mem_of_mem_getOnlineDevices reg p hp).1

theorem scanOnce_sticky (cfg : Config) (reg : Registry) (snap : ScanResult)
    (now : Int) (K : String) (r : Device)
    (hwf : WfRegistry reg)
    (hr : reg.devices.find? (fun x => x.mac == K) = some r) :
    ∃ r', (scanRegOf cfg reg (some snap) now).devices.find? (fun x => x.mac == K)
        = some r' ∧ stickyEq r r' := by
  show ∃ r', ((getOnlineDevices reg).foldl
    (ttlStep cfg.device_ttl now
      (snap.devices.foldl (snapStep snap.scan_time
        ((getOnlineDevices reg).map (fun d => d.mac)) now) ⟨reg, [], []⟩).currentlySeen)
    ((snap.devices.foldl (snapStep snap.scan_time
        ((getOnlineDevices reg).map (fun d => d.mac)) now) ⟨reg, [], []⟩).reg,
     (snap.devices.foldl (snapStep snap.scan_time
        ((getOnlineDevices reg).map (fun d => d.mac)) now) ⟨reg, [], []⟩).changes)).1.devices.find?
      (fun x => x.mac == K) = some r' ∧ stickyEq r r'
  refine ttlFold_sticky reg cfg.device_ttl now _ (getOnlineDevices reg) _ ?_ ?_ K r hr
  · intro p hp
    obtain ⟨hmem, _⟩ := mem_of_mem_getOnlineDevices reg p hp
    exact ⟨hwf.1 p hmem, find?_eq_of_mem_nodup reg.devices p hwf.2 hmem⟩
  · intro K' r' hr'
    exact snapFold_sticky snap.scan_time _ now snap.devices ⟨reg, [], []⟩ K' r' hr'

/-- The snapshot loop of `scan_once` as a whole (first phase). -/
def snapPhase (reg : Registry) (snap : ScanResult) (now : Int) : ScanLoopState :=
  snap.devices.foldl
    (snapStep snap.scan_time ((getOnlineDevices reg).map (fun d => d.mac)) now)
    ⟨reg, [], []⟩

/-- The TTL loop of `scan_once` as a whole (second phase). -/
def ttlPhase (cfg : Config) (reg : Registry) (snap : ScanResult) (now : Int) :
    Registry × List PresenceChange :=
  (getOnlineDevices reg).foldl
    (ttlStep cfg.device_ttl now (snapPhase reg snap now).currentlySeen)
    ((snapPhase reg snap now).reg, (snapPhase reg snap now).changes)

theorem scanRegOf_eq (cfg : Config) (reg : Registry) (snap : ScanResult) (now : Int) :
    scanRegOf cfg reg (some snap) now = (ttlPhase cfg reg snap now).1 := rfl

theorem scanChangesOf_eq (cfg : Config) (reg : Registry) (snap : ScanResult)
    (now : Int) :
    scanChangesOf cfg reg (some snap) now = (ttlPhase cfg reg snap now).2 := rfl

theorem scanOnce_eq_ok (cfg : Config) (reg : Registry) (snap : ScanResult) (now : Int) :
    scanOnce cfg reg (some snap) now = .ok (ttlPhase cfg reg snap now) := rfl

theorem getDevice_eq_find? (reg : Registry) (M : String) (hK : strUpper M = M) :
    getDevice reg M = reg.devices.find? (fun x => x.mac == M) := by
  unfold getDevice
  rw [hK]

theorem contains_eq_false_of_not_mem (l : List String) (a : String) (h : a ∉ l) :
    l.contains a = false := by
  cases hc : l.contains a with
  | false => rfl
  | true => exact absurd (List.mem_of_elem_eq_true hc) h

/-- Claim C10: a device online in the registry with `last_seen = None` that
is absent from the snapshot is never marked offline: the TTL comparison is
skipped (`watcher.py:114` requires `device.last_seen` truthy), the record is
untouched, and no `left` change is emitted for it. -/
theorem null_last_seen_never_marked_offline (cfg : Config) (reg : Registry)
    (snap : ScanResult) (now : Int) (M : String) (dev : Device)
    (hwf : WfRegistry reg) (hK : strUpper M = M)
    (hfind : getDevice reg M = some dev)
    (hon : dev.is_online = true) (hls : dev.last_seen = none)
    (habs : ∀ d ∈ snap.devices, strUpper d.mac ≠ M) :
    getDevice (scanRegOf cfg reg (some snap) now) M = some dev ∧
    leftChangeCount (scanChangesOf cfg reg (some snap) now) M = 0 := by
  have hfind' : reg.devices.find? (fun x => x.mac == M) = some dev := by
    rw [← getDevice_eq_find? reg M hK]
    exact hfind
  have hnotmemM : M ∉ snap.devices.map (fun d => d.mac) := by
    intro hmem
    obtain ⟨d, hd, hdm⟩ := List.mem_map.mp hmem
    exact habs d hd (by rw [hdm, hK])
  have hstreg : (snapPhase reg snap now).reg.devices.find? (fun x => x.mac == M)
      = some dev := by
    unfold snapPhase
    rw [snapFold_find?_of_ne _ _ _ _ _ M habs]
    exact hfind'
  have hseen : (snapPhase reg snap now).currentlySeen
      = snap.devices.map (fun d => d.mac) := by
    unfold snapPhase
    rw [snapFold_currentlySeen]
    simp
  have hps : ∀ p ∈ getOnlineDevices reg,
      (strUpper p.mac = p.mac ∧ p.mac ≠ M) ∨
      (∀ acc', ttlStep cfg.device_ttl now (snapPhase reg snap now).currentlySeen acc' p
        = acc') := by
    intro p hp
    obtain ⟨hmem, _⟩ := mem_of_mem_getOnlineDevices reg p hp
    by_cases hpm : p.mac = M
    · right
      have hpd : p = dev := by
        have h1 := find?_eq_of_mem_nodup reg.devices p hwf.2 hmem
        rw [hpm, hfind'] at h1
        exact (Option.some.inj h1).symm
      intro acc'
      have hcont : (snapPhase reg snap now).currentlySeen.contains p.mac = false := by
        apply contains_eq_false_of_not_mem
        rw [hseen, hpm]
        exact hnotmemM
      exact ttlStep_of_no_last_seen _ _ _ _ _ hcont (by rw [hpd]; exact hls)
    · left
      exact ⟨hwf.1 p hmem, hpm⟩
  have hfold := ttlFold_preserve_of_each cfg.device_ttl now
    (snapPhase reg snap now).currentlySeen (getOnlineDevices reg)
    ((snapPhase reg snap now).reg, (snapPhase reg snap now).changes) M hps
  obtain ⟨ex, hex, hexP⟩ := snapFold_changes_shape snap.scan_time
    ((getOnlineDevices reg).map (fun d => d.mac)) now snap.devices ⟨reg, [], []⟩
  constructor
  · rw [getDevice_eq_find? _ M hK, scanRegOf_eq]
    show (ttlPhase cfg reg snap now).1.devices.find? (fun x => x.mac == M) = some dev
    unfold ttlPhase
    rw [hfold.1]
    exact hstreg
  · rw [scanChangesOf_eq]
    show leftChangeCount (ttlPhase cfg reg snap now).2 M = 0
    unfold ttlPhase
    rw [hfold.2]
    show leftChangeCount (snapPhase reg snap now).changes M = 0
    unfold snapPhase
    rw [hex]
    apply leftChangeCount_eq_zero_of
    intro c hc
    rcases (hexP c (by simpa using hc)).1 with h | h <;> simp [h]

/-- Witness for C10: an online device with no `last_seen` and an empty
snapshot long after; still online, no `left` change. -/
theorem null_last_seen_never_marked_offline_witness :
    getDevice (scanRegOf {} ⟨[⟨"C", none, none, none, some 0, none, true, none⟩], []⟩
        (some ⟨[], 100000⟩) 100000) "C"
      = some ⟨"C", none, none, none, some 0, none, true, none⟩ ∧
    leftChangeCount (scanChangesOf {}
        ⟨[⟨"C", none, none, none, some 0, none, true, none⟩], []⟩
        (some ⟨[], 100000⟩) 100000) "C" = 0 :=
  null_last_seen_never_marked_offline {}
    ⟨[⟨"C", none, none, none, some 0, none, true, none⟩], []⟩ ⟨[], 100000⟩ 100000 "C"
    ⟨"C", none, none, none, some 0, none, true, none⟩
    (by constructor
        · intro d hd
          simp only [List.mem_singleton] at hd
          subst hd
          decide
        · decide)
    (by decide) (by decide) rfl rfl (by intro d hd; cases hd)

/-- Counterexample to C7: a scan does not refresh only
`last_seen`/`ip`/`is_online` — it also overwrites `vendor` whenever the
snapshot carries a non-null vendor (`upsert_device` coalesces
`excluded.vendor` first).  A known online device with stored vendor
`OldVendor` gets `NewVendor` after one reconciliation. -/
theorem scan_overwrites_vendor :
    (getDevice ⟨[⟨"A", some "Phone", some "OldVendor", some "ip", some 0, some 0,
        true, none⟩], []⟩ "A").map (fun d => d.vendor) = some (some "OldVendor") ∧
    (getDevice (scanRegOf {}
        ⟨[⟨"A", some "Phone", some "OldVendor", some "ip", some 0, some 0, true, none⟩],
          []⟩
        (some ⟨[⟨"A", none, some "NewVendor", some "ip2", none, some 5, true, none⟩], 5⟩)
        5) "A").map (fun d => d.vendor) = some (some "NewVendor") := by
  constructor
  · rfl
  · decide

/-- Claim C7 as amended: the sticky fields `name`/`group`/`first_seen` of
every known device survive any number of reconciliation cycles untouched; a
scan refreshes `last_seen`/`ip`/`is_online` and also `vendor` (when the
snapshot supplies a non-null one), but never the sticky fields. -/
theorem sticky_fields_survive_reconciliation (cfg : Config) (reg : Registry)
    (cycles : List (Option ScanResult × Int)) (M : String) (r : Device)
    (hwf : WfRegistry reg) (hK : strUpper M = M)
    (hcans : ∀ c ∈ cycles, ∀ sr : ScanResult, c.1 = some sr →
      ∀ d ∈ sr.devices, strUpper d.mac = d.mac)
    (hr : getDevice reg M = some r) :
    ∃ r', getDevice (runCycles cfg reg cycles) M = some r' ∧
      r'.name = r.name ∧ r'.group = r.group ∧ r'.first_seen = r.first_seen := by
  have hr' : reg.devices.find? (fun x => x.mac == M) = some r := by
    rw [← getDevice_eq_find? reg M hK]
    exact hr
  suffices h : ∃ r', (runCycles cfg reg cycles).devices.find? (fun x => x.mac == M)
      = some r' ∧ stickyEq r r' by
    obtain ⟨r', h1, h2⟩ := h
    refine ⟨r', ?_, h2.1.symm, h2.2.1.symm, h2.2.2.symm⟩
    rw [getDevice_eq_find? _ M hK]
    exact h1
  induction cycles generalizing reg r with
  | nil => exact ⟨r, hr', stickyEq_refl r⟩
  | cons c cycles ih =>
    unfold runCycles
    rw [List.foldl_cons]
    obtain ⟨osr, tnow⟩ := c
    cases osr with
    | none =>
      have hid : webBackgroundCycle cfg reg none tnow = reg := rfl
      rw [hid]
      exact ih reg r hwf
        (fun x hx => hcans x (List.mem_cons_of_mem _ hx)) (by
          rw [getDevice_eq_find? reg M hK]; exact hr') hr'
    | some sr =>
      have hweb : webBackgroundCycle cfg reg (some sr) tnow
          = scanRegOf cfg reg (some sr) tnow := rfl
      rw [hweb]
      have hsnapcan : ∀ d ∈ sr.devices, strUpper d.mac = d.mac :=
        hcans (some sr, tnow) (List.mem_cons_self _ _) sr rfl
      obtain ⟨r1, hr1, hs1⟩ := scanOnce_sticky cfg reg sr tnow M r hwf hr'
      have hwf1 := scanOnce_wf cfg reg sr tnow hwf hsnapcan
      obtain ⟨r2, hr2, hs2⟩ := ih (scanRegOf cfg reg (some sr) tnow) r1 hwf1
        (fun x hx => hcans x (List.mem_cons_of_mem _ hx)) (by
          rw [getDevice_eq_find? _ M hK]; exact hr1) hr1
      exact ⟨r2, hr2, stickyEq_trans hs1 hs2⟩

/-- Witness for C7 (amended): a named, grouped device keeps
name/group/first_seen across two cycles — one where it appears in the
snapshot and one where it is absent. -/
theorem sticky_fields_survive_reconciliation_witness :
    ∃ r', getDevice (runCycles {}
        ⟨[⟨"A", some "Bob", none, some "ip", some 0, some 0, true, some "family"⟩], []⟩
        [(some ⟨[⟨"A", none, some "V", some "ip2", none, some 5, true, none⟩], 5⟩, 5),
         (some ⟨[], 1000⟩, 1000)]) "A" = some r' ∧
      r'.name = some "Bob" ∧ r'.group = some "family" ∧ r'.first_seen = some 0 :=
  sticky_fields_survive_reconciliation {}
    ⟨[⟨"A", some "Bob", none, some "ip", some 0, some 0, true, some "family"⟩], []⟩
    [(some ⟨[⟨"A", none, some "V", some "ip2", none, some 5, true, none⟩], 5⟩, 5),
     (some ⟨[], 1000⟩, 1000)] "A"
    ⟨"A", some "Bob", none, some "ip", some 0, some 0, true, some "family"⟩
    (by constructor
        · intro d hd
          simp only [List.mem_singleton] at hd
          subst hd
          decide
        · decide)
    (by decide)
    (by intro c hc sr hsr d hd
        simp only [List.mem_cons] at hc
        rcases hc with rfl | rfl | hemp
        · cases hsr
          simp only [List.mem_singleton] at hd
          subst hd
          decide
        · cases hsr
          cases hd
        · cases hemp)
    (by decide)

/-- Counterexample to C3: with a known-but-offline device `B` and an
unknown device `A`, a snapshot ordered `[B, A]` yields the change list
`[arrived B, new A]` — an `arrived` strictly before a `new`, and not
ascending by MAC either — so the spec's ordering (`new` first, then
`arrived`, then `left`, ascending MAC within each kind) does not hold. -/
theorem changes_not_ordered_by_kind :
    (scanChangesOf {} ⟨[⟨"B", none, none, none, some 0, some 0, false, none⟩], []⟩
        (some ⟨[⟨"B", none, none, none, none, some 5, true, none⟩,
                ⟨"A", none, none, none, none, some 5, true, none⟩], 5⟩) 5).map
      (fun c => c.change_type) = ["arrived", "new"] ∧
    specOrderedB (scanChangesOf {}
        ⟨[⟨"B", none, none, none, some 0, some 0, false, none⟩], []⟩
        (some ⟨[⟨"B", none, none, none, none, some 5, true, none⟩,
                ⟨"A", none, none, none, none, some 5, true, none⟩], 5⟩) 5) = false := by
  constructor
  · decide
  · decide

/-- Claim C3 as amended: the change list of a cycle is the snapshot-loop
changes (each `new` or `arrived`, emitted in snapshot iteration order, with
no sorting by kind or MAC) followed by the TTL-loop `left` changes (in the
registry's online-device listing order). -/
theorem changes_are_snapshot_phase_then_left (cfg : Config) (reg : Registry)
    (snap : ScanResult) (now : Int) :
    ∃ a b, scanChangesOf cfg reg (some snap) now = a ++ b ∧
      (∀ c ∈ a, c.change_type = "new" ∨ c.change_type = "arrived") ∧
      (∀ c ∈ b, c.change_type = "left") := by
  rw [scanChangesOf_eq]
  unfold ttlPhase
  obtain ⟨ex, hex, hexP⟩ := ttlFold_changes_shape cfg.device_ttl now
    (snapPhase reg snap now).currentlySeen (getOnlineDevices reg)
    ((snapPhase reg snap now).reg, (snapPhase reg snap now).changes)
  obtain ⟨a0, ha0, ha0P⟩ := snapFold_changes_shape snap.scan_time
    ((getOnlineDevices reg).map (fun d => d.mac)) now snap.devices ⟨reg, [], []⟩
  refine ⟨(snapPhase reg snap now).changes, ex, hex, ?_, hexP⟩
  intro c hc
  have h2 : (snapPhase reg snap now).changes = [] ++ a0 := ha0
  rw [h2] at hc
  exact (ha0P c (by simpa using hc)).1

/-- Claim C1: an online registry device absent from the snapshot stays
fully online with no `left` change or event while `now - last_seen <
device_ttl`; once `now - last_seen >= device_ttl` it is marked offline,
exactly one `left` event is logged and exactly one `left` change is
emitted for it in that cycle. -/
theorem ttl_expiry_behavior (cfg : Config) (reg : Registry) (snap : ScanResult)
    (now ls : Int) (M : String) (dev : Device)
    (hwf : WfRegistry reg) (hK : strUpper M = M)
    (hfind : getDevice reg M = some dev)
    (hon : dev.is_online = true) (hls : dev.last_seen = some ls)
    (habs : ∀ d ∈ snap.devices, strUpper d.mac ≠ M) :
    (now - ls < cfg.device_ttl →
      getDevice (scanRegOf cfg reg (some snap) now) M = some dev ∧
      leftChangeCount (scanChangesOf cfg reg (some snap) now) M = 0 ∧
      leftEventCount (scanRegOf cfg reg (some snap) now).events M =
        leftEventCount reg.events M) ∧
    (now - ls ≥ cfg.device_ttl →
      (∃ r', getDevice (scanRegOf cfg reg (some snap) now) M = some r' ∧
        r'.is_online = false) ∧
      leftChangeCount (scanChangesOf cfg reg (some snap) now) M = 1 ∧
      leftEventCount (scanRegOf cfg reg (some snap) now).events M =
        leftEventCount reg.events M + 1) := by
  have hfind' : reg.devices.find? (fun x => x.mac == M) = some dev := by
    rw [← getDevice_eq_find? reg M hK]
    exact hfind
  have hdevmac : dev.mac = M := by simpa using List.find?_some hfind'
  have hcanDev : strUpper dev.mac = dev.mac := by rw [hdevmac]; exact hK
  have hnotmemM : M ∉ snap.devices.map (fun d => d.mac) := by
    intro hmem
    obtain ⟨d, hd, hdm⟩ := List.mem_map.mp hmem
    exact habs d hd (by rw [hdm, hK])
  have hstreg : (snapPhase reg snap now).reg.devices.find? (fun x => x.mac == M)
      = some dev := by
    unfold snapPhase
    rw [snapFold_find?_of_ne _ _ _ _ _ M habs]
    exact hfind'
  have hseen : (snapPhase reg snap now).currentlySeen
      = snap.devices.map (fun d => d.mac) := by
    unfold snapPhase
    rw [snapFold_currentlySeen]
    simp
  have hcont : (snapPhase reg snap now).currentlySeen.contains dev.mac = false := by
    apply contains_eq_false_of_not_mem
    rw [hseen, hdevmac]
    exact hnotmemM
  -- the snapshot phase produces no left changes and no left events
  have hchg0 : leftChangeCount (snapPhase reg snap now).changes M = 0 := by
    obtain ⟨a0, ha0, ha0P⟩ := snapFold_changes_shape snap.scan_time
      ((getOnlineDevices reg).map (fun d => d.mac)) now snap.devices ⟨reg, [], []⟩
    have h2 : (snapPhase reg snap now).changes = [] ++ a0 := ha0
    rw [h2]
    apply leftChangeCount_eq_zero_of
    intro c hc
    rcases (ha0P c (by simpa using hc)).1 with h | h <;> simp [h]
  have hev0 : leftEventCount (snapPhase reg snap now).reg.events M =
      leftEventCount reg.events M := by
    obtain ⟨ey, hey, heyP⟩ := snapFold_events_shape snap.scan_time
      ((getOnlineDevices reg).map (fun d => d.mac)) now snap.devices ⟨reg, [], []⟩
    have h2 : (snapPhase reg snap now).reg.events = reg.events ++ ey := hey
    rw [h2, leftEventCount_append]
    rw [leftEventCount_eq_zero_of ey M (fun e he => by simp [heyP e he])]
    rfl
  -- split the previously-online list around dev
  have hmemOnline : dev ∈ getOnlineDevices reg :=
    mem_getOnlineDevices_of reg dev (List.mem_of_find?_eq_some hfind') hon
  obtain ⟨l1, l2, hsplit⟩ := List.append_of_mem hmemOnline
  have hnd := getOnlineDevices_macs_nodup reg hwf
  rw [hsplit, List.map_append, List.map_cons] at hnd
  have hndparts := List.nodup_append.mp hnd
  have hM1 : dev.mac ∉ l1.map (fun d => d.mac) := by
    intro hmem
    exact (hndparts.2.2 hmem) (List.mem_cons_self _ _)
  have hM2 : dev.mac ∉ l2.map (fun d => d.mac) :=
    (List.nodup_cons.mp hndparts.2.1).1
  have hl1 : ∀ p ∈ l1, strUpper p.mac = p.mac ∧ p.mac ≠ M := by
    intro p hp
    have hpo : p ∈ getOnlineDevices reg := by
      rw [hsplit]
      exact List.mem_append.mpr (Or.inl hp)
    refine ⟨hwf.1 p (mem_of_mem_getOnlineDevices reg p hpo).1, ?_⟩
    intro hpm
    exact hM1 (List.mem_map.mpr ⟨p, hp, by rw [hpm, hdevmac]⟩)
  have hl2 : ∀ p ∈ l2, strUpper p.mac = p.mac ∧ p.mac ≠ M := by
    intro p hp
    have hpo : p ∈ getOnlineDevices reg := by
      rw [hsplit]
      exact List.mem_append.mpr (Or.inr (List.mem_cons_of_mem _ hp))
    refine ⟨hwf.1 p (mem_of_mem_getOnlineDevices reg p hpo).1, ?_⟩
    intro hpm
    exact hM2 (List.mem_map.mpr ⟨p, hp, by rw [hpm, hdevmac]⟩)
  -- the TTL phase, decomposed at dev
  have hphase_eq : ttlPhase cfg reg snap now
      = l2.foldl (ttlStep cfg.device_ttl now (snapPhase reg snap now).currentlySeen)
        (ttlStep cfg.device_ttl now (snapPhase reg snap now).currentlySeen
          (l1.foldl (ttlStep cfg.device_ttl now (snapPhase reg snap now).currentlySeen)
            ((snapPhase reg snap now).reg, (snapPhase reg snap now).changes)) dev) := by
    unfold ttlPhase
    rw [hsplit, List.foldl_append, List.foldl_cons]
  have hfold1 := ttlFold_preserve_of_ne cfg.device_ttl now
    (snapPhase reg snap now).currentlySeen l1
    ((snapPhase reg snap now).reg, (snapPhase reg snap now).changes) M hl1
  constructor
  · -- not yet expired
    intro hlt
    have httl : ¬(now - ls ≥ cfg.device_ttl) := by omega
    have hstep : ttlStep cfg.device_ttl now (snapPhase reg snap now).currentlySeen
        (l1.foldl (ttlStep cfg.device_ttl now (snapPhase reg snap now).currentlySeen)
          ((snapPhase reg snap now).reg, (snapPhase reg snap now).changes)) dev
        = l1.foldl (ttlStep cfg.device_ttl now (snapPhase reg snap now).currentlySeen)
          ((snapPhase reg snap now).reg, (snapPhase reg snap now).changes) :=
      ttlStep_of_fresh _ _ _ _ _ ls hcont hls httl
    have hfold2 := ttlFold_preserve_of_ne cfg.device_ttl now
      (snapPhase reg snap now).currentlySeen l2
      (l1.foldl (ttlStep cfg.device_ttl now (snapPhase reg snap now).currentlySeen)
        ((snapPhase reg snap now).reg, (snapPhase reg snap now).changes)) M hl2
    refine ⟨?_, ?_, ?_⟩
    · rw [getDevice_eq_find? _ M hK, scanRegOf_eq, hphase_eq, hstep,
        hfold2.1, hfold1.1]
      exact hstreg
    · rw [scanChangesOf_eq, hphase_eq, hstep, hfold2.2.1, hfold1.2.1]
      exact hchg0
    · rw [scanRegOf_eq, hphase_eq, hstep, hfold2.2.2.1, hfold1.2.2.1]
      exact hev0
  · -- expired
    intro hge
    have hstep : ttlStep cfg.device_ttl now (snapPhase reg snap now).currentlySeen
        (l1.foldl (ttlStep cfg.device_ttl now (snapPhase reg snap now).currentlySeen)
          ((snapPhase reg snap now).reg, (snapPhase reg snap now).changes)) dev
        = (logEvent (upsertDevice
            (l1.foldl (ttlStep cfg.device_ttl now (snapPhase reg snap now).currentlySeen)
              ((snapPhase reg snap now).reg, (snapPhase reg snap now).changes)).1
            { dev with is_online := false } now) dev.mac "left" now,
          (l1.foldl (ttlStep cfg.device_ttl now (snapPhase reg snap now).currentlySeen)
            ((snapPhase reg snap now).reg, (snapPhase reg snap now).changes)).2 ++
            [⟨{ dev with is_online := false }, "left"⟩]) :=
      ttlStep_of_expired _ _ _ _ _ ls hcont hls hge
    have hupkey : strUpper ({ dev with is_online := false } : Device).mac = M := by
      show strUpper dev.mac = M
      rw [hcanDev, hdevmac]
    have hupfind : (l1.foldl (ttlStep cfg.device_ttl now
          (snapPhase reg snap now).currentlySeen)
          ((snapPhase reg snap now).reg, (snapPhase reg snap now).changes)).1.devices.find?
        (fun x => x.mac ==
          strUpper ({ dev with is_online := false } : Device).mac) = some dev := by
      rw [hupkey, hfold1.1]
      exact hstreg
    have hafter := upsertDevice_find?_update _ { dev with is_online := false } now dev
      hupfind
    rw [hupkey] at hafter
    have hfold2 := ttlFold_preserve_of_ne cfg.device_ttl now
      (snapPhase reg snap now).currentlySeen l2
      (logEvent (upsertDevice
          (l1.foldl (ttlStep cfg.device_ttl now (snapPhase reg snap now).currentlySeen)
            ((snapPhase reg snap now).reg, (snapPhase reg snap now).changes)).1
          { dev with is_online := false } now) dev.mac "left" now,
        (l1.foldl (ttlStep cfg.device_ttl now (snapPhase reg snap now).currentlySeen)
          ((snapPhase reg snap now).reg, (snapPhase reg snap now).changes)).2 ++
          [⟨{ dev with is_online := false }, "left"⟩]) M hl2
    refine ⟨?_, ?_, ?_⟩
    · rw [getDevice_eq_find? _ M hK, scanRegOf_eq]
      refine ⟨upsertUpdate { dev with is_online := false } now dev, ?_, rfl⟩
      rw [hphase_eq, hstep, hfold2.1]
      show (logEvent _ _ _ _).devices.find? (fun x => x.mac == M) = _
      rw [logEvent_devices]
      exact hafter
    · rw [scanChangesOf_eq, hphase_eq, hstep, hfold2.2.1, leftChangeCount_append,
        hfold1.2.1, hchg0]
      show 0 + leftChangeCount [⟨{ dev with is_online := false }, "left"⟩] M = 1
      simp [leftChangeCount, hdevmac]
    · rw [scanRegOf_eq, hphase_eq, hstep, hfold2.2.2.1]
      have hevs : (logEvent (upsertDevice
          (l1.foldl (ttlStep cfg.device_ttl now (snapPhase reg snap now).currentlySeen)
            ((snapPhase reg snap now).reg, (snapPhase reg snap now).changes)).1
          { dev with is_online := false } now) dev.mac "left" now).events =
          (l1.foldl (ttlStep cfg.device_ttl now (snapPhase reg snap now).currentlySeen)
            ((snapPhase reg snap now).reg, (snapPhase reg snap now).changes)).1.events ++
            [⟨strUpper dev.mac, "left", now⟩] := by
        show (upsertDevice _ _ now).events ++ _ = _
        rw [upsertDevice_events]
      rw [hevs, leftEventCount_append, hfold1.2.2.1, hev0]
      have h1 : leftEventCount [(⟨strUpper dev.mac, "left", now⟩ : EventRec)] M = 1 := by
        simp [leftEventCount, hcanDev, hdevmac, hK]
      rw [h1]

/-- Witness for C1: TTL 180, device last seen at 0, absent snapshots at
`now = 100` (fresh: unchanged) and at `now = 200` (expired: offline, one
`left` change, one `left` event). -/
theorem ttl_expiry_behavior_witness :
    (getDevice (scanRegOf {} ⟨[⟨"C", none, none, none, some 0, some 0, true, none⟩], []⟩
        (some ⟨[], 100⟩) 100) "C"
      = some ⟨"C", none, none, none, some 0, some 0, true, none⟩ ∧
     leftChangeCount (scanChangesOf {}
        ⟨[⟨"C", none, none, none, some 0, some 0, true, none⟩], []⟩
        (some ⟨[], 100⟩) 100) "C" = 0 ∧
     leftEventCount (scanRegOf {}
        ⟨[⟨"C", none, none, none, some 0, some 0, true, none⟩], []⟩
        (some ⟨[], 100⟩) 100).events "C" = leftEventCount [] "C") ∧
    ((∃ r', getDevice (scanRegOf {}
        ⟨[⟨"C", none, none, none, some 0, some 0, true, none⟩], []⟩
        (some ⟨[], 200⟩) 200) "C" = some r' ∧ r'.is_online = false) ∧
     leftChangeCount (scanChangesOf {}
        ⟨[⟨"C", none, none, none, some 0, some 0, true, none⟩], []⟩
        (some ⟨[], 200⟩) 200) "C" = 1 ∧
     leftEventCount (scanRegOf {}
        ⟨[⟨"C", none, none, none, some 0, some 0, true, none⟩], []⟩
        (some ⟨[], 200⟩) 200).events "C" = leftEventCount [] "C" + 1) := by
  have hwfC : WfRegistry ⟨[⟨"C", none, none, none, some 0, some 0, true, none⟩], []⟩ := by
    constructor
    · intro d hd
      simp only [List.mem_singleton] at hd
      subst hd
      decide
    · decide
  have habsC : ∀ d ∈ ([] : List Device), strUpper d.mac ≠ "C" := by
    intro d hd
    cases hd
  constructor
  · exact (ttl_expiry_behavior {} _ ⟨[], 100⟩ 100 0 "C"
      ⟨"C", none, none, none, some 0, some 0, true, none⟩ hwfC (by decide) (by decide)
      rfl rfl habsC).1 (by decide)
  · exact (ttl_expiry_behavior {} _ ⟨[], 200⟩ 200 0 "C"
      ⟨"C", none, none, none, some 0, some 0, true, none⟩ hwfC (by decide) (by decide)
      rfl rfl habsC).2 (by decide)

/-- Counterexample to C2: the engine performs no de-duplication.  A
snapshot carrying the same unknown MAC twice produces two changes for that
MAC in one cycle (`new` then `arrived`), not at most one. -/
theorem duplicate_mac_not_deduplicated :
    ((scanChangesOf {} ⟨[], []⟩
        (some ⟨[⟨"AA", none, none, some "1", none, some 0, true, none⟩,
                ⟨"AA", none, some "V", some "2", none, some 0, true, none⟩], 0⟩) 0).filter
      (fun c => c.device.mac == "AA")).length = 2 := by
  decide

/-- Claim C2 as amended: a snapshot with the same (previously unknown) MAC
twice is processed once per occurrence: exactly one record is persisted for
that MAC (it is the table key) and its vendor keeps the non-null value via
coalescing while its IP is the last occurrence's, but the cycle emits one
change per occurrence — a `new` for the first and an `arrived` for the
second, because the previously-online set is not refreshed mid-cycle. -/
theorem duplicate_mac_one_record_two_changes (cfg : Config) (reg : Registry)
    (d1 d2 : Device) (t now : Int)
    (hwf : WfRegistry reg)
    (hm : d2.mac = d1.mac) (hcan : strUpper d1.mac = d1.mac)
    (hnew : getDevice reg d1.mac = none) :
    ((scanChangesOf cfg reg (some ⟨[d1, d2], t⟩) now).filter
        (fun c => c.device.mac == d1.mac)).map (fun c => c.change_type)
      = ["new", "arrived"] ∧
    ((scanRegOf cfg reg (some ⟨[d1, d2], t⟩) now).devices.filter
        (fun r => r.mac == d1.mac)).length = 1 ∧
    (∃ rec, getDevice (scanRegOf cfg reg (some ⟨[d1, d2], t⟩) now) d1.mac = some rec ∧
      rec.vendor = coalesce d2.vendor d1.vendor ∧ rec.ip = d2.ip) := by
  have hnew' : reg.devices.find? (fun r => r.mac == d1.mac) = none := by
    rw [← getDevice_eq_find? reg d1.mac hcan]
    exact hnew
  have hcan1 : strUpper ({ d1 with first_seen := some t, is_online := true }
      : Device).mac = d1.mac := hcan
  have hcan2 : strUpper d2.mac = d1.mac := by rw [hm, hcan]
  -- the two snapshot steps
  have h1 : snapStep t ((getOnlineDevices reg).map (fun d => d.mac)) now
      ⟨reg, [], []⟩ d1 =
      ⟨logEvent (upsertDevice reg { d1 with first_seen := some t, is_online := true } now)
          d1.mac "arrived" now,
        [] ++ [d1.mac],
        [] ++ [⟨{ d1 with first_seen := some t, is_online := true }, "new"⟩]⟩ :=
    snapStep_of_unknown t _ now ⟨reg, [], []⟩ d1 hnew
  have hpre1 : reg.devices.find? (fun r => r.mac ==
      strUpper ({ d1 with first_seen := some t, is_online := true } : Device).mac)
      = none := by
    rw [hcan1]
    exact hnew'
  have hfound1 : (upsertDevice reg { d1 with first_seen := some t, is_online := true }
      now).devices.find? (fun r => r.mac == d1.mac) =
      some (upsertInsert { d1 with first_seen := some t, is_online := true } now) := by
    have h := upsertDevice_find?_insert reg
      { d1 with first_seen := some t, is_online := true } now hpre1
    rw [hcan1] at h
    exact h
  have hg2 : getDevice (logEvent (upsertDevice reg
      { d1 with first_seen := some t, is_online := true } now) d1.mac "arrived" now)
      d2.mac = some (upsertInsert { d1 with first_seen := some t, is_online := true }
      now) := by
    show (logEvent _ _ _ _).devices.find? (fun r => r.mac == strUpper d2.mac) = _
    rw [logEvent_devices, hcan2]
    exact hfound1
  have hnotprev : ((getOnlineDevices reg).map (fun d => d.mac)).contains d2.mac
      = false := by
    apply contains_eq_false_of_not_mem
    rw [hm]
    intro hmem
    obtain ⟨p, hp, hpm⟩ := List.mem_map.mp hmem
    have hpmem := (mem_of_mem_getOnlineDevices reg p hp).1
    have := List.find?_eq_none.mp hnew' p hpmem
    simp [hpm] at this
  -- abbreviations for the state after step 1
  have h2 := snapStep_of_arrived t ((getOnlineDevices reg).map (fun d => d.mac)) now
    ⟨logEvent (upsertDevice reg { d1 with first_seen := some t, is_online := true } now)
        d1.mac "arrived" now,
      [] ++ [d1.mac],
      [] ++ [⟨{ d1 with first_seen := some t, is_online := true }, "new"⟩]⟩
    d2 (upsertInsert { d1 with first_seen := some t, is_online := true } now) hg2 hnotprev
  have hsnap : snapPhase reg ⟨[d1, d2], t⟩ now =
      snapStep t ((getOnlineDevices reg).map (fun d => d.mac)) now
        ⟨logEvent (upsertDevice reg { d1 with first_seen := some t, is_online := true }
            now) d1.mac "arrived" now,
          [] ++ [d1.mac],
          [] ++ [⟨{ d1 with first_seen := some t, is_online := true }, "new"⟩]⟩ d2 := by
    show snapStep t ((getOnlineDevices reg).map (fun d => d.mac)) now
        (snapStep t ((getOnlineDevices reg).map (fun d => d.mac)) now ⟨reg, [], []⟩ d1)
        d2 = _
    rw [h1]
  have hchanges : (snapPhase reg ⟨[d1, d2], t⟩ now).changes =
      ([] ++ [⟨{ d1 with first_seen := some t, is_online := true }, "new"⟩]) ++
        [⟨{ d2 with
            name := (upsertInsert { d1 with first_seen := some t, is_online := true }
              now).name,
            group := (upsertInsert { d1 with first_seen := some t, is_online := true }
              now).group,
            first_seen := (upsertInsert { d1 with first_seen := some t, is_online := true } now).first_seen,
            is_online := true }, "arrived"⟩] := by
    rw [hsnap, h2]
  have hreg : (snapPhase reg ⟨[d1, d2], t⟩ now).reg =
      logEvent (upsertDevice
        (logEvent (upsertDevice reg { d1 with first_seen := some t, is_online := true }
          now) d1.mac "arrived" now)
        { d2 with
          name := (upsertInsert { d1 with first_seen := some t, is_online := true }
            now).name,
          group := (upsertInsert { d1 with first_seen := some t, is_online := true }
            now).group,
          first_seen := (upsertInsert { d1 with first_seen := some t, is_online := true } now).first_seen,
          is_online := true } now) d2.mac "arrived" now := by
    rw [hsnap, h2]
  have hps : ∀ p ∈ getOnlineDevices reg, strUpper p.mac = p.mac ∧ p.mac ≠ d1.mac := by
    intro p hp
    have hpmem := (mem_of_mem_getOnlineDevices reg p hp).1
    refine ⟨hwf.1 p hpmem, ?_⟩
    intro hpm
    have := List.find?_eq_none.mp hnew' p hpmem
    simp [hpm] at this
  have hpre2 : (logEvent (upsertDevice reg
        { d1 with first_seen := some t, is_online := true } now) d1.mac "arrived"
        now).devices.find?
      (fun r => r.mac == strUpper ({ d2 with
        name := (upsertInsert { d1 with first_seen := some t, is_online := true }
          now).name,
        group := (upsertInsert { d1 with first_seen := some t, is_online := true }
          now).group,
        first_seen := (upsertInsert { d1 with first_seen := some t, is_online := true } now).first_seen,
        is_online := true } : Device).mac) =
      some (upsertInsert { d1 with first_seen := some t, is_online := true } now) := by
    show (logEvent _ _ _ _).devices.find? (fun r => r.mac == strUpper d2.mac) = _
    rw [logEvent_devices, hcan2]
    exact hfound1
  refine ⟨?_, ?_, ?_⟩
  · rw [scanChangesOf_eq]
    unfold ttlPhase
    rw [ttlFold_macChanges_of_ne cfg.device_ttl now _ (getOnlineDevices reg) _ d1.mac
      (fun p hp => (hps p hp).2), hchanges]
    simp [hm]
  · rw [scanRegOf_eq]
    unfold ttlPhase
    rw [(ttlFold_preserve_of_ne cfg.device_ttl now _ (getOnlineDevices reg) _ d1.mac
      hps).2.2.2, hreg]
    show ((logEvent (upsertDevice _ _ now) d2.mac "arrived" now).devices.filter
      (fun r => r.mac == d1.mac)).length = 1
    rw [logEvent_devices]
    rw [upsertDevice_count_update _ _ now d1.mac
      (upsertInsert { d1 with first_seen := some t, is_online := true } now) hpre2]
    show ((logEvent (upsertDevice reg
        { d1 with first_seen := some t, is_online := true } now) d1.mac "arrived"
        now).devices.filter (fun r => r.mac == d1.mac)).length = 1
    rw [logEvent_devices]
    have hcnt1 := upsertDevice_count_insert reg
      { d1 with first_seen := some t, is_online := true } now hpre1
    rw [hcan1] at hcnt1
    rw [hcnt1]
    have hnil : reg.devices.filter (fun r => r.mac == d1.mac) = [] :=
      List.filter_eq_nil_iff.mpr
        (fun r hr => by simpa using List.find?_eq_none.mp hnew' r hr)
    rw [hnil]
    rfl
  · have hfound2 := upsertDevice_find?_update
      (logEvent (upsertDevice reg { d1 with first_seen := some t, is_online := true }
        now) d1.mac "arrived" now)
      { d2 with
        name := (upsertInsert { d1 with first_seen := some t, is_online := true }
          now).name,
        group := (upsertInsert { d1 with first_seen := some t, is_online := true }
          now).group,
        first_seen := (upsertInsert { d1 with first_seen := some t, is_online := true } now).first_seen,
        is_online := true } now
      (upsertInsert { d1 with first_seen := some t, is_online := true } now) hpre2
    have hkey : strUpper ({ d2 with
        name := (upsertInsert { d1 with first_seen := some t, is_online := true }
          now).name,
        group := (upsertInsert { d1 with first_seen := some t, is_online := true }
          now).group,
        first_seen := (upsertInsert { d1 with first_seen := some t, is_online := true } now).first_seen,
        is_online := true } : Device).mac = d1.mac := hcan2
    rw [hkey] at hfound2
    refine ⟨upsertUpdate { d2 with
        name := (upsertInsert { d1 with first_seen := some t, is_online := true }
          now).name,
        group := (upsertInsert { d1 with first_seen := some t, is_online := true }
          now).group,
        first_seen := (upsertInsert { d1 with first_seen := some t, is_online := true }
          now).first_seen,
        is_online := true } now
        (upsertInsert { d1 with first_seen := some t, is_online := true } now),
      ?_, rfl, rfl⟩
    rw [getDevice_eq_find? _ _ hcan, scanRegOf_eq]
    unfold ttlPhase
    rw [(ttlFold_preserve_of_ne cfg.device_ttl now _ (getOnlineDevices reg) _ d1.mac
      hps).1, hreg]
    show (logEvent (upsertDevice _ _ now) d2.mac "arrived" now).devices.find?
      (fun r => r.mac == d1.mac) = _
    rw [logEvent_devices]
    exact hfound2

/-- Witness for C2 (amended): empty registry, snapshot with MAC `AA` twice
(first with null vendor, then with vendor `V`): one record with vendor `V`
and the second occurrence's IP, but two changes `new` then `arrived`. -/
theorem duplicate_mac_one_record_two_changes_witness :
    ((scanChangesOf {} ⟨[], []⟩
        (some ⟨[⟨"AA", none, none, some "1", none, some 0, true, none⟩,
                ⟨"AA", none, some "V", some "2", none, some 0, true, none⟩], 0⟩) 0).filter
        (fun c => c.device.mac == "AA")).map (fun c => c.change_type)
      = ["new", "arrived"] ∧
    ((scanRegOf {} ⟨[], []⟩
        (some ⟨[⟨"AA", none, none, some "1", none, some 0, true, none⟩,
                ⟨"AA", none, some "V", some "2", none, some 0, true, none⟩], 0⟩)
        0).devices.filter (fun r => r.mac == "AA")).length = 1 ∧
    (∃ rec, getDevice (scanRegOf {} ⟨[], []⟩
        (some ⟨[⟨"AA", none, none, some "1", none, some 0, true, none⟩,
                ⟨"AA", none, some "V", some "2", none, some 0, true, none⟩], 0⟩)
        0) "AA" = some rec ∧
      rec.vendor = coalesce (some "V") none ∧ rec.ip = some "2") :=
  duplicate_mac_one_record_two_changes {} ⟨[], []⟩
    ⟨"AA", none, none, some "1", none, some 0, true, none⟩
    ⟨"AA", none, some "V", some "2", none, some 0, true, none⟩ 0 0
    ⟨fun d hd => absurd hd (List.not_mem_nil d), List.nodup_nil⟩
    rfl (by decide) rfl

end WiFinder
